import Mathlib

/-!
Shallow embedding of `backend/danswer/background/update.py`: the indexing
control loop (scheduler, reaper, dispatcher, swap controller, supervisor).

The mutable relational store is rendered as an explicit `StoreState` record;
each Python function that touches the database becomes a state transformer.
A Python exception is rendered as `Except.error (msg, state-at-raise)`, so a
raised error carries the partial effects already committed before the raise.
Store-gateway operations that live outside this module (the `danswer.db.*`
imports) are modelled from the spec; their doc comments say so.
-/

namespace Update

/-- Status of an index attempt row, from `danswer.db.models.IndexingStatus`. -/
inductive IndexingStatus where
  | NOT_STARTED
  | IN_PROGRESS
  | SUCCESS
  | FAILED
deriving DecidableEq, Repr

/-- Status of an embedding model row, from `danswer.db.models.IndexModelStatus`. -/
inductive IndexModelStatus where
  | PAST
  | PRESENT
  | FUTURE
deriving DecidableEq, Repr

/-- A connector row, with its credential associations flattened to the list
of associated credential ids (the loop only ever reads
`association.credential.id`). -/
structure Connector where
  id : Nat
  disabled : Bool
  refresh_freq : Option Int
  credential_ids : List Nat
deriving DecidableEq, Repr

/-- An embedding model row. -/
structure EmbeddingModel where
  id : Nat
  status : IndexModelStatus
deriving DecidableEq, Repr

/-- An index attempt row.  Foreign keys are `Option` because the referenced
rows can be deleted (the dispatcher checks `attempt.connector is None` etc.).
Times are integer seconds on the database clock. -/
structure IndexAttempt where
  id : Nat
  connector_id : Option Nat
  credential_id : Option Nat
  embedding_model_id : Option Nat
  status : IndexingStatus
  time_updated : Int
  failure_reason : Option String
deriving DecidableEq, Repr

/-- A connector-credential-pair aggregate row. -/
structure ConnectorCredentialPair where
  connector_id : Nat
  credential_id : Nat
  attempt_status : IndexingStatus
deriving DecidableEq, Repr

/-- The durable store visible to the loop.  `now` is the database clock
(`get_db_current_time`), constant across one tick.  `next_attempt_id` feeds
`create_index_attempt`. -/
structure StoreState where
  connectors : List Connector
  credentials : List Nat
  cc_pairs : List ConnectorCredentialPair
  embedding_models : List EmbeddingModel
  index_attempts : List IndexAttempt
  now : Int
  next_attempt_id : Nat
deriving DecidableEq, Repr

/-- A raised Python exception: message plus the store as already mutated at
the raise point (statement-level commits persist across a raise). -/
abbrev DbError := String × StoreState

/-! ### Store gateway (modelled from the spec, section 4.1) -/

/-- Modelled from the spec: `list_connectors()` returns all connector rows. -/
def fetch_connectors (s : StoreState) : List Connector :=
  s.connectors

/-- Modelled from the spec: `list_cc_pairs()` returns all CC-pair rows. -/
def get_connector_credential_pairs (s : StoreState) : List ConnectorCredentialPair :=
  s.cc_pairs

/-- Modelled from the spec: `current_model()` — the unique PRESENT model,
if any. -/
def get_current_db_embedding_model (s : StoreState) : Option EmbeddingModel :=
  s.embedding_models.find? (fun m => m.status = IndexModelStatus.PRESENT)

/-- Modelled from the spec: `secondary_model()` — the FUTURE model, if any. -/
def get_secondary_db_embedding_model (s : StoreState) : Option EmbeddingModel :=
  s.embedding_models.find? (fun m => m.status = IndexModelStatus.FUTURE)

/-- Modelled from the spec: `get_attempt(id)` — the attempt row with the
given id. -/
def get_index_attempt (s : StoreState) (index_attempt_id : Nat) : Option IndexAttempt :=
  s.index_attempts.find? (fun a => a.id = index_attempt_id)

/-- ORM navigation `attempt.embedding_model`: resolve the foreign key in the
store, `none` when the key is null or dangling. -/
def attempt_embedding_model (s : StoreState) (a : IndexAttempt) : Option EmbeddingModel :=
  a.embedding_model_id.bind (fun mid => s.embedding_models.find? (fun m => m.id = mid))

/-- ORM navigation `attempt.connector`. -/
def attempt_connector (s : StoreState) (a : IndexAttempt) : Option Connector :=
  a.connector_id.bind (fun cid => s.connectors.find? (fun c => c.id = cid))

/-- ORM navigation `attempt.credential` (credentials are opaque: the store
just records which ids exist). -/
def attempt_credential (s : StoreState) (a : IndexAttempt) : Option Nat :=
  a.credential_id.bind (fun kid => s.credentials.find? (fun k => k = kid))

/-- Modelled from the spec: `attempts_not_started()`. -/
def get_not_started_index_attempts (s : StoreState) : List IndexAttempt :=
  s.index_attempts.filter (fun a => a.status = IndexingStatus.NOT_STARTED)

/-- Modelled from the spec: `attempts_in_progress(connector_id)` — in-progress
attempts belonging to the given connector. -/
def get_inprogress_index_attempts (s : StoreState) (connector_id : Nat) : List IndexAttempt :=
  s.index_attempts.filter (fun a =>
    a.connector_id = some connector_id ∧ a.status = IndexingStatus.IN_PROGRESS)

/-- Modelled from the spec: `count_distinct_cc_pairs_attempted(model_id)` —
the number of distinct (connector, credential) pairs having any index attempt
against the given model. -/
def count_unique_cc_pairs_with_index_attempts (s : StoreState) (embedding_model_id : Nat) : Nat :=
  (((s.index_attempts.filter (fun a => a.embedding_model_id = some embedding_model_id)).map
    (fun a => (a.connector_id, a.credential_id))).dedup).length

/-- The row transform `mark_attempt_failed` applies to a non-terminal row:
status FAILED, the given reason, a fresh update time. -/
def failed_row (failure_reason : String) (now : Int) (a : IndexAttempt) : IndexAttempt :=
  { a with status := IndexingStatus.FAILED, failure_reason := some failure_reason,
           time_updated := now }

/-- Row-level effect of `mark_attempt_failed` on the row with the given id:
terminal rows are left unchanged (idempotence), others fail. -/
def mark_row (index_attempt_id : Nat) (failure_reason : String) (now : Int)
    (a : IndexAttempt) : IndexAttempt :=
  if a.id = index_attempt_id then
    if a.status = IndexingStatus.SUCCESS ∨ a.status = IndexingStatus.FAILED then a
    else failed_row failure_reason now a
  else a

/-- Modelled from the spec: `mark_attempt_failed(attempt, reason)` —
idempotent: a row already terminal (SUCCESS or FAILED) is left unchanged;
otherwise the row becomes FAILED with the given reason and a fresh
`time_updated`. -/
def mark_attempt_failed (s : StoreState) (index_attempt_id : Nat) (failure_reason : String) :
    StoreState :=
  { s with index_attempts :=
      s.index_attempts.map (mark_row index_attempt_id failure_reason s.now) }

/-- Modelled from the spec: `update_cc_pair_status(connector_id,
credential_id, status)`. -/
def update_connector_credential_pair (s : StoreState) (connector_id credential_id : Nat)
    (attempt_status : IndexingStatus) : StoreState :=
  { s with cc_pairs := s.cc_pairs.map (fun p =>
      if p.connector_id = connector_id ∧ p.credential_id = credential_id then
        { p with attempt_status := attempt_status }
      else p) }

/-- Modelled from the spec: `set_model_status(model, new_status)`. -/
def update_embedding_model_status (s : StoreState) (embedding_model_id : Nat)
    (new_status : IndexModelStatus) : StoreState :=
  { s with embedding_models := s.embedding_models.map (fun m =>
      if m.id = embedding_model_id then { m with status := new_status } else m) }

/-- Modelled from the spec: `create_attempt(connector_id, credential_id,
model_id)` inserts a NOT_STARTED attempt row. -/
def create_index_attempt (s : StoreState) (connector_id credential_id embedding_model_id : Nat) :
    StoreState :=
  { s with
      index_attempts := s.index_attempts ++
        [{ id := s.next_attempt_id,
           connector_id := some connector_id,
           credential_id := some credential_id,
           embedding_model_id := some embedding_model_id,
           status := IndexingStatus.NOT_STARTED,
           time_updated := s.now,
           failure_reason := none }],
      next_attempt_id := s.next_attempt_id + 1 }

/-- Modelled from the spec: `last_attempt(connector_id, credential_id,
model_id)` — the most recently created attempt for the triple (rows are kept
in creation order). -/
def get_last_attempt (s : StoreState) (connector_id credential_id embedding_model_id : Nat) :
    Option IndexAttempt :=
  (s.index_attempts.filter (fun a =>
    a.connector_id = some connector_id ∧ a.credential_id = some credential_id ∧
      a.embedding_model_id = some embedding_model_id)).getLast?

/-- Modelled from the spec: `mark_all_in_progress_cc_pairs_failed()` executed
once at process start. -/
def mark_all_in_progress_cc_pairs_failed (s : StoreState) : StoreState :=
  { s with cc_pairs := s.cc_pairs.map (fun p =>
      if p.attempt_status = IndexingStatus.IN_PROGRESS then
        { p with attempt_status := IndexingStatus.FAILED }
      else p) }

/-! ### Util funcs of `update.py` -/

def UNEXPECTED_STATE_FAILURE_REASON : String :=
  "Stopped mid run, likely due to the background process being killed"

/-- `_should_create_new_indexing` from `update.py`, line for line.  `db_now`
stands for `get_db_current_time(db_session)`. -/
def should_create_new_indexing (connector : Connector) (last_index : Option IndexAttempt)
    (model : EmbeddingModel) (db_now : Int) : Bool :=
  -- When switching over models, always index at least once
  if model.status = IndexModelStatus.FUTURE ∧ last_index = none then
    if connector.id = 0 then false  -- Ingestion API
    else true
  -- If the connector is disabled, don't index
  else if connector.disabled then false
  else
    match connector.refresh_freq with
    | none => false
    | some refresh_freq =>
      match last_index with
      | none => true
      | some last =>
        -- Only one scheduled job per connector at a time
        if last.status = IndexingStatus.NOT_STARTED then false
        else decide (db_now - last.time_updated ≥ refresh_freq)

/-- `_is_indexing_job_marked_as_finished` from `update.py`. -/
def is_indexing_job_marked_as_finished (index_attempt : Option IndexAttempt) : Bool :=
  match index_attempt with
  | none => false
  | some a =>
      a.status = IndexingStatus.FAILED ∨ a.status = IndexingStatus.SUCCESS

/-- `_mark_run_failed` from `update.py`: marks the attempt row failed via the
gateway, then updates the CC-pair when the attempt has both foreign keys and
belongs to the PRESENT model.  Reading `.status` off a null embedding-model
reference raises (the gateway mark is already committed at that point). -/
def mark_run_failed (s : StoreState) (index_attempt : IndexAttempt) (failure_reason : String) :
    Except DbError StoreState :=
  let s1 := mark_attempt_failed s index_attempt.id failure_reason
  match index_attempt.connector_id, index_attempt.credential_id with
  | some connector_id, some credential_id =>
    match attempt_embedding_model s index_attempt with
    | none => Except.error ("AttributeError: embedding_model is None", s1)
    | some m =>
      if m.status = IndexModelStatus.PRESENT then
        Except.ok (update_connector_credential_pair s1 connector_id credential_id
          IndexingStatus.FAILED)
      else Except.ok s1
  | _, _ => Except.ok s1

/-! ### Job handles and the tracked-jobs map -/

/-- Observable status of a submitted job handle (Dask future or SimpleJob). -/
inductive JobStatus where
  | pending
  | running
  | finished
  | error
deriving DecidableEq, Repr

/-- A job handle; the loop only ever reads its status. -/
structure Job where
  status : JobStatus
deriving DecidableEq, Repr

/-- `job.done()`: true iff finished or errored. -/
def Job.done (j : Job) : Bool :=
  j.status = JobStatus.finished ∨ j.status = JobStatus.error

/-- The tracked-jobs map `existing_jobs : dict[int, Future | SimpleJob]`,
rendered as an association list with unique keys. -/
abbrev JobMap := List (Nat × Job)

def jm_member (jm : JobMap) (attempt_id : Nat) : Bool :=
  (jm.lookup attempt_id).isSome

def jm_erase (jm : JobMap) (attempt_id : Nat) : JobMap :=
  jm.filter (fun e => e.1 ≠ attempt_id)

def jm_insert (jm : JobMap) (attempt_id : Nat) (j : Job) : JobMap :=
  if (jm.lookup attempt_id).isSome then
    jm.map (fun e => if e.1 = attempt_id then (attempt_id, j) else e)
  else jm ++ [(attempt_id, j)]

/-- A job client: `submit` keyed by the attempt id it is given; `none` is a
falsy handle (submission failure). -/
abbrev JobClient := Nat → Option Job

/-! ### `cleanup_indexing_jobs` -/

def FROZEN_FAILURE_REASON : String :=
  "Indexing run frozen - no updates in the last three hours. The run will be re-attempted at next scheduled indexing time."

/-- Body of the first `cleanup_indexing_jobs` loop for one tracked
(attempt id, job) entry: reap completed jobs, deleting them from the copy of
the map and failing attempts left IN_PROGRESS or whose handle errored. -/
def cleanup_completed_step (s : StoreState) (copyJobs : JobMap) (attempt_id : Nat) (job : Job) :
    Except DbError (StoreState × JobMap) :=
  let index_attempt := get_index_attempt s attempt_id
  -- do nothing for ongoing jobs that haven't been stopped
  if ¬ job.done ∧ ¬ is_indexing_job_marked_as_finished index_attempt then
    Except.ok (s, copyJobs)
  else
    -- (an errored handle is logged; `job.release()` has no store effect)
    let copyJobs := jm_erase copyJobs attempt_id
    match index_attempt with
    | none => Except.ok (s, copyJobs)
    | some ia =>
      if ia.status = IndexingStatus.IN_PROGRESS ∨ job.status = JobStatus.error then
        (mark_run_failed s ia UNEXPECTED_STATE_FAILURE_REASON).map (fun s2 => (s2, copyJobs))
      else Except.ok (s, copyJobs)

/-- First loop of `cleanup_indexing_jobs`, over the entries of the tracked
map (the store and the copy evolve; the iterated list is the snapshot). -/
def cleanup_completed_jobs :
    StoreState → JobMap → JobMap → Except DbError (StoreState × JobMap)
  | s, copyJobs, [] => Except.ok (s, copyJobs)
  | s, copyJobs, (attempt_id, job) :: rest => do
    let (s2, copy2) ← cleanup_completed_step s copyJobs attempt_id job
    cleanup_completed_jobs s2 copy2 rest

/-- Inner loop of the in-progress sweep, over the attempts fetched for one
connector.  The returned id list records the cancelled handles. -/
def cleanup_inprogress_attempts (jobs : JobMap) (timeout_hours : Int) :
    StoreState → List Nat → List IndexAttempt → Except DbError (StoreState × List Nat)
  | s, cancels, [] => Except.ok (s, cancels)
  | s, cancels, ia :: rest =>
    if jm_member jobs ia.id then
      -- check whether the job has been updated in the last `timeout_hours` hours
      if s.now - ia.time_updated > 60 * 60 * timeout_hours then
        -- `existing_jobs[ia.id].cancel()`, then mark the run failed
        match mark_run_failed s ia FROZEN_FAILURE_REASON with
        | Except.error e => Except.error e
        | Except.ok s2 => cleanup_inprogress_attempts jobs timeout_hours s2 (cancels ++ [ia.id]) rest
      else cleanup_inprogress_attempts jobs timeout_hours s cancels rest
    else
      -- If job isn't known, simply mark it as failed
      match mark_run_failed s ia UNEXPECTED_STATE_FAILURE_REASON with
      | Except.error e => Except.error e
      | Except.ok s2 => cleanup_inprogress_attempts jobs timeout_hours s2 cancels rest

/-- Outer loop of the in-progress sweep, over all connectors; each connector's
in-progress attempts are fetched from the store as it then stands. -/
def cleanup_inprogress_connectors (jobs : JobMap) (timeout_hours : Int) :
    StoreState → List Nat → List Connector → Except DbError (StoreState × List Nat)
  | s, cancels, [] => Except.ok (s, cancels)
  | s, cancels, c :: rest => do
    let (s2, cancels2) ← cleanup_inprogress_attempts jobs timeout_hours s cancels
      (get_inprogress_index_attempts s c.id)
    cleanup_inprogress_connectors jobs timeout_hours s2 cancels2 rest

structure CleanupResult where
  store : StoreState
  jobs : JobMap
  cancelled : List Nat
deriving DecidableEq, Repr

/-- `cleanup_indexing_jobs` from `update.py`: reap completed tracked jobs,
then sweep in-progress attempts connector by connector. -/
def cleanup_indexing_jobs (s : StoreState) (existing_jobs : JobMap) (timeout_hours : Int) :
    Except DbError CleanupResult := do
  let (s1, copyJobs) ← cleanup_completed_jobs s existing_jobs existing_jobs
  let (s2, cancels) ← cleanup_inprogress_connectors existing_jobs timeout_hours s1 []
    (fetch_connectors s1)
  Except.ok { store := s2, jobs := copyJobs, cancelled := cancels }

/-! ### `kickoff_indexing_jobs` -/

structure KickoffResult where
  store : StoreState
  jobs : JobMap
  /-- submit calls made: (attempt id, sent to the secondary client?). -/
  submitted : List (Nat × Bool)
deriving DecidableEq, Repr

/-- `use_secondary_index`: FUTURE-model attempts go to the secondary pool; a
null model reference defaults to the primary pool. -/
def use_secondary_of (embedding_model : Option EmbeddingModel) : Bool :=
  match embedding_model with
  | some m => decide (m.status = IndexModelStatus.FUTURE)
  | none => false

/-- Body of the `kickoff_indexing_jobs` loop for one (attempt, its embedding
model as read in the initial session).  Navigations resolve against the
entry store `s0`; connector and credential rows are not modified by this
function. -/
def kickoff_step (s0 : StoreState) (client secondary_client : JobClient)
    (s : StoreState) (jobs : JobMap) (subs : List (Nat × Bool))
    (attempt : IndexAttempt) (embedding_model : Option EmbeddingModel) :
    StoreState × JobMap × List (Nat × Bool) :=
  let use_secondary_index : Bool := use_secondary_of embedding_model
  if attempt_connector s0 attempt = none then
    (mark_attempt_failed s attempt.id "Connector is null", jobs, subs)
  else if attempt_credential s0 attempt = none then
    (mark_attempt_failed s attempt.id "Credential is null", jobs, subs)
  else
    let run := if use_secondary_index then secondary_client attempt.id else client attempt.id
    let subs2 := subs ++ [(attempt.id, use_secondary_index)]
    match run with
    | some j => (s, jm_insert jobs attempt.id j, subs2)
    | none => (s, jobs, subs2)

def kickoff_loop (s0 : StoreState) (client secondary_client : JobClient) :
    StoreState → JobMap → List (Nat × Bool) → List (IndexAttempt × Option EmbeddingModel) →
    StoreState × JobMap × List (Nat × Bool)
  | s, jobs, subs, [] => (s, jobs, subs)
  | s, jobs, subs, (attempt, em) :: rest =>
    let r := kickoff_step s0 client secondary_client s jobs subs attempt em
    kickoff_loop s0 client secondary_client r.1 r.2.1 r.2.2 rest

/-- `kickoff_indexing_jobs` from `update.py`: pick up NOT_STARTED attempts
that are not already tracked and submit them to the proper pool. -/
def kickoff_indexing_jobs (s : StoreState) (existing_jobs : JobMap)
    (client secondary_client : JobClient) : KickoffResult :=
  let new_indexing_attempts :=
    ((get_not_started_index_attempts s).filter
      (fun a => ¬ jm_member existing_jobs a.id)).map
      (fun a => (a, attempt_embedding_model s a))
  if new_indexing_attempts = [] then
    { store := s, jobs := existing_jobs, submitted := [] }
  else
    let r := kickoff_loop s client secondary_client s existing_jobs [] new_indexing_attempts
    { store := r.1, jobs := r.2.1, submitted := r.2.2 }

/-! ### `create_indexing_jobs` -/

/-- The `ongoing` set built at the top of `create_indexing_jobs`: triples of
the tracked attempts that still have rows; a tracked id with no row is
logged and skipped. -/
def ongoing_triples (s : StoreState) (existing_jobs : JobMap) :
    List (Option Nat × Option Nat × Option Nat) :=
  existing_jobs.filterMap (fun e =>
    (get_index_attempt s e.1).map (fun a =>
      (a.connector_id, a.credential_id, a.embedding_model_id)))

/-- `create_indexing_jobs` from `update.py`: walk connectors × credentials ×
relevant models, skip tracked triples, consult `_should_create_new_indexing`,
and insert NOT_STARTED attempts (raising if no PRESENT model exists). -/
def create_indexing_jobs (s : StoreState) (existing_jobs : JobMap) :
    Except DbError StoreState :=
  let ongoing := ongoing_triples s existing_jobs
  match get_current_db_embedding_model s with
  | none => Except.error ("NoResultFound: no current embedding model", s)
  | some current_model =>
    let embedding_models :=
      match get_secondary_db_embedding_model s with
      | some m2 => [current_model, m2]
      | none => [current_model]
    Except.ok ((fetch_connectors s).foldl (fun sc connector =>
      connector.credential_ids.foldl (fun sc credential_id =>
        embedding_models.foldl (fun sc model =>
          if (some connector.id, some credential_id, some model.id) ∈ ongoing then sc
          else if ¬ should_create_new_indexing connector
              (get_last_attempt sc connector.id credential_id model.id) model sc.now then sc
          else
            let sc2 := create_index_attempt sc connector.id credential_id model.id
            -- CC-Pair keeps the status it should have for the primary index
            if model.status = IndexModelStatus.PRESENT then
              update_connector_credential_pair sc2 connector.id credential_id
                IndexingStatus.NOT_STARTED
            else sc2) sc) sc) s)

/-! ### `check_index_swap` -/

structure SwapResult where
  store : StoreState
  /-- the cc-pairs passed to `resync_cc_pair`, in order.  Modelled from the
  spec: resync recomputes a pair's aggregate; the recomputed values are not
  observed by any claim here, so the model records the calls and leaves the
  aggregates unchanged. -/
  resynced : List ConnectorCredentialPair
deriving DecidableEq, Repr

/-- `check_index_swap` from `update.py`: promote the FUTURE model once the
count of distinct cc-pairs attempted against it reaches the cc-pair count
minus one (the ingestion pseudo-pair); raise when the count exceeds it. -/
def check_index_swap (s : StoreState) : Except DbError SwapResult :=
  let all_cc_pairs := get_connector_credential_pairs s
  let cc_pair_count : Int := (all_cc_pairs.length : Int) - 1
  match get_secondary_db_embedding_model s with
  | none => Except.ok { store := s, resynced := [] }
  | some embedding_model =>
    let unique_cc_indexings : Int :=
      count_unique_cc_pairs_with_index_attempts s embedding_model.id
    if unique_cc_indexings > cc_pair_count then
      Except.error ("More unique indexings than cc pairs, should not occur", s)
    else if cc_pair_count = unique_cc_indexings then
      match get_current_db_embedding_model s with
      | none => Except.error ("NoResultFound: no current embedding model", s)
      | some now_old_embedding_model =>
        let s1 := update_embedding_model_status s now_old_embedding_model.id
          IndexModelStatus.PAST
        let s2 := update_embedding_model_status s1 embedding_model.id
          IndexModelStatus.PRESENT
        Except.ok { store := s2, resynced := all_cc_pairs }
    else Except.ok { store := s, resynced := [] }

/-! ### `update_loop` -/

/-- One tick of `update_loop`: Swap, Reap, Schedule, Dispatch; any raise is
caught at the tick boundary, keeping the store effects committed up to the
raise and the tracked map from the last completed phase. -/
def run_tick (client secondary_client : JobClient) (timeout_hours : Int)
    (p : StoreState × JobMap) : StoreState × JobMap :=
  match check_index_swap p.1 with
  | Except.error e => (e.2, p.2)
  | Except.ok swap =>
    match cleanup_indexing_jobs swap.store p.2 timeout_hours with
    | Except.error e => (e.2, p.2)
    | Except.ok cr =>
      match create_indexing_jobs cr.store cr.jobs with
      | Except.error e => (e.2, cr.jobs)
      | Except.ok s3 =>
        let kr := kickoff_indexing_jobs s3 cr.jobs client secondary_client
        (kr.store, kr.jobs)

/-- `update_loop` observed for a given number of ticks: the startup cc-pair
recovery runs once, before the first tick; each further tick applies
`run_tick` to the previous state. -/
def update_loop_run (client secondary_client : JobClient) (timeout_hours : Int) :
    Nat → StoreState → StoreState × JobMap
  | 0, s => (mark_all_in_progress_cc_pairs_failed s, [])
  | n + 1, s => run_tick client secondary_client timeout_hours
      (update_loop_run client secondary_client timeout_hours n s)

/-- End-of-tick sleep decision: `sleep_time = delay - (time.time() - start)`;
sleep only when positive.  Durations are rationals standing for the float
seconds. -/
def tick_sleep_duration (delay elapsed : Rat) : Option Rat :=
  let sleep_time := delay - elapsed
  if sleep_time > 0 then some sleep_time else none

/-! ### Well-formedness and frame vocabulary -/

/-- The immutable part of an attempt row: reaping and dispatching change only
status, failure reason and update time. -/
def row_core (a : IndexAttempt) : Nat × Option Nat × Option Nat × Option Nat :=
  (a.id, a.connector_id, a.credential_id, a.embedding_model_id)

/-- What one cleanup or dispatch phase can never change: every store table
except the cc-pair aggregates, and the core of every attempt row. -/
def same_skeleton (s s2 : StoreState) : Prop :=
  s2.connectors = s.connectors ∧ s2.credentials = s.credentials ∧
  s2.embedding_models = s.embedding_models ∧ s2.now = s.now ∧
  s2.next_attempt_id = s.next_attempt_id ∧
  s2.index_attempts.map row_core = s.index_attempts.map row_core

/-- The attempt's embedding-model reference resolves in the given model table
whenever both foreign keys are non-null (otherwise `_mark_run_failed` would
raise off a null reference). -/
def models_resolve (models : List EmbeddingModel) (a : IndexAttempt) : Prop :=
  a.connector_id.isSome → a.credential_id.isSome →
    (a.embedding_model_id.bind (fun mid => models.find? (fun m => m.id = mid))).isSome

/-- Database well-formedness used by the cleanup claims: unique attempt ids,
unique connector ids, resolvable model references. -/
def WFStore (s : StoreState) : Prop :=
  (s.index_attempts.map (fun a => a.id)).Nodup ∧
  (s.connectors.map (fun c => c.id)).Nodup ∧
  ∀ a ∈ s.index_attempts, models_resolve s.embedding_models a

/-- The attempt ids the stall check cancels out of one fetched batch: those
tracked in the jobs map whose snapshot update time is stale by strictly more
than the timeout. -/
def stall_cancelled (jobs : JobMap) (timeout_hours : Int) (now : Int)
    (attempts : List IndexAttempt) : List Nat :=
  (attempts.filter (fun ia => jm_member jobs ia.id &&
    decide (now - ia.time_updated > 60 * 60 * timeout_hours))).map (fun ia => ia.id)

/-! ### Concrete stores used by witnesses and counterexamples -/

/-- Store for the C1 witness: two cc-pairs (one of them the ingestion
pseudo-pair), a PRESENT model 10 and a FUTURE model 20, and one attempt
against model 20 covering the single eligible pair. -/
def swapReadyStore : StoreState :=
  { connectors := [⟨1, false, some 60, [1]⟩],
    credentials := [1],
    cc_pairs := [⟨1, 1, IndexingStatus.SUCCESS⟩, ⟨0, 0, IndexingStatus.SUCCESS⟩],
    embedding_models := [⟨10, IndexModelStatus.PRESENT⟩, ⟨20, IndexModelStatus.FUTURE⟩],
    index_attempts := [⟨1, some 1, some 1, some 20, IndexingStatus.FAILED, 0, none⟩],
    now := 100,
    next_attempt_id := 2 }

/-- Store for the C7 witness: one PRESENT model, one in-progress attempt, the
matching cc-pair. -/
def markRunStore : StoreState :=
  { connectors := [⟨1, false, some 60, [2]⟩],
    credentials := [2],
    cc_pairs := [⟨1, 2, IndexingStatus.IN_PROGRESS⟩],
    embedding_models := [⟨10, IndexModelStatus.PRESENT⟩],
    index_attempts := [⟨5, some 1, some 2, some 10, IndexingStatus.IN_PROGRESS, 50, none⟩],
    now := 100,
    next_attempt_id := 6 }

/-- The attempt row inside `markRunStore`. -/
def markRunAttempt : IndexAttempt :=
  ⟨5, some 1, some 2, some 10, IndexingStatus.IN_PROGRESS, 50, none⟩

/-- Store for the C4 counterexample: one IN_PROGRESS attempt whose connector
row (id 5) has been deleted; nothing is tracked. -/
def orphanStore : StoreState :=
  { connectors := [],
    credentials := [],
    cc_pairs := [],
    embedding_models := [⟨10, IndexModelStatus.PRESENT⟩],
    index_attempts := [⟨1, some 5, some 1, some 10, IndexingStatus.IN_PROGRESS, 0, none⟩],
    now := 1000000,
    next_attempt_id := 2 }

/-- Store for the C4/C5 witnesses: one IN_PROGRESS attempt whose connector
row exists, stale by far more than the timeout. -/
def sweepStore : StoreState :=
  { connectors := [⟨5, false, some 60, [1]⟩],
    credentials := [1],
    cc_pairs := [⟨5, 1, IndexingStatus.IN_PROGRESS⟩],
    embedding_models := [⟨10, IndexModelStatus.PRESENT⟩],
    index_attempts := [⟨1, some 5, some 1, some 10, IndexingStatus.IN_PROGRESS, 0, none⟩],
    now := 20000,
    next_attempt_id := 2 }

/-- The attempt row inside `sweepStore` and `orphanStore`. -/
def sweepAttempt : IndexAttempt :=
  ⟨1, some 5, some 1, some 10, IndexingStatus.IN_PROGRESS, 0, none⟩

/-- Store for the C6 witness: one NOT_STARTED attempt whose connector and
credential rows exist. -/
def kickStore : StoreState :=
  { connectors := [⟨1, false, some 60, [2]⟩],
    credentials := [2],
    cc_pairs := [⟨1, 2, IndexingStatus.NOT_STARTED⟩],
    embedding_models := [⟨10, IndexModelStatus.PRESENT⟩],
    index_attempts := [⟨9, some 1, some 2, some 10, IndexingStatus.NOT_STARTED, 0, none⟩],
    now := 100,
    next_attempt_id := 10 }

/-- The attempt row inside `kickStore`. -/
def kickAttempt : IndexAttempt :=
  ⟨9, some 1, some 2, some 10, IndexingStatus.NOT_STARTED, 0, none⟩

/-- Store for the C10 witness: like `kickStore` but the attempt's
embedding-model reference is null. -/
def kickNullModelStore : StoreState :=
  { connectors := [⟨1, false, some 60, [2]⟩],
    credentials := [2],
    cc_pairs := [⟨1, 2, IndexingStatus.NOT_STARTED⟩],
    embedding_models := [⟨10, IndexModelStatus.PRESENT⟩],
    index_attempts := [⟨9, some 1, some 2, none, IndexingStatus.NOT_STARTED, 0, none⟩],
    now := 100,
    next_attempt_id := 10 }

/-- The attempt row inside `kickNullModelStore`. -/
def kickNullModelAttempt : IndexAttempt :=
  ⟨9, some 1, some 2, none, IndexingStatus.NOT_STARTED, 0, none⟩

/-- Store for the C9 scenario: one schedulable triple, no attempt rows at
all, while the tracked map still holds a handle for the deleted attempt 7. -/
def schedStore : StoreState :=
  { connectors := [⟨1, false, some 60, [1]⟩],
    credentials := [1],
    cc_pairs := [⟨1, 1, IndexingStatus.SUCCESS⟩],
    embedding_models := [⟨10, IndexModelStatus.PRESENT⟩],
    index_attempts := [],
    now := 100,
    next_attempt_id := 3 }

/-- Tracked map for the C9 scenario: a live handle for attempt 7 whose row
is gone. -/
def schedJobs : JobMap := [(7, ⟨JobStatus.running⟩)]

/-- The store `create_indexing_jobs` produces from `schedStore` and
`schedJobs`: a fresh NOT_STARTED attempt for the triple and the cc-pair
reset. -/
def schedResultStore : StoreState :=
  { connectors := [⟨1, false, some 60, [1]⟩],
    credentials := [1],
    cc_pairs := [⟨1, 1, IndexingStatus.NOT_STARTED⟩],
    embedding_models := [⟨10, IndexModelStatus.PRESENT⟩],
    index_attempts := [⟨3, some 1, some 1, some 10, IndexingStatus.NOT_STARTED, 100, none⟩],
    now := 100,
    next_attempt_id := 4 }

/-- Store for the C8 witness: a FUTURE model with no cc-pairs at all, which
makes the swap check raise inside the tick. -/
def emptyFutureStore : StoreState :=
  { connectors := [],
    credentials := [],
    cc_pairs := [],
    embedding_models := [⟨20, IndexModelStatus.FUTURE⟩],
    index_attempts := [],
    now := 0,
    next_attempt_id := 0 }

/-! ## Claims -/

/-- Claim C2: for a FUTURE-status model with no prior attempt for the triple,
`_should_create_new_indexing` returns true exactly when the connector is not
the ingestion pseudo-connector (id 0), regardless of the connector being
disabled or having no refresh_freq. -/
theorem claim_C2_future_first_build (connector : Connector) (model : EmbeddingModel)
    (db_now : Int) (hm : model.status = IndexModelStatus.FUTURE) :
    should_create_new_indexing connector none model db_now = true ↔ connector.id ≠ 0 := by
  by_cases h : connector.id = 0 <;> simp [should_create_new_indexing, hm, h]

/-- Witness for C2: a disabled connector with no refresh cadence and no prior
attempt is scheduled against a FUTURE model; the ingestion pseudo-connector
is not. -/
theorem claim_C2_future_first_build_witness :
    (should_create_new_indexing ⟨3, true, none, [7]⟩ none ⟨20, IndexModelStatus.FUTURE⟩ 0
        = true ↔ (3 : Nat) ≠ 0) ∧
    (should_create_new_indexing ⟨0, false, some 60, [7]⟩ none ⟨20, IndexModelStatus.FUTURE⟩ 0
        = true ↔ (0 : Nat) ≠ 0) :=
  ⟨claim_C2_future_first_build ⟨3, true, none, [7]⟩ ⟨20, IndexModelStatus.FUTURE⟩ 0 rfl,
   claim_C2_future_first_build ⟨0, false, some 60, [7]⟩ ⟨20, IndexModelStatus.FUTURE⟩ 0 rfl⟩

/-- Claim C3: for an enabled connector with a refresh cadence and an existing
last attempt, scheduling happens exactly when the database-clock age of the
last attempt reaches `refresh_freq` (non-strict comparison, so equality
schedules and a zero cadence schedules whenever the clock has not gone
backwards); a NOT_STARTED last attempt never schedules. -/
theorem claim_C3_cadence (connector : Connector) (la : IndexAttempt)
    (model : EmbeddingModel) (db_now : Int) (f : Int)
    (hdis : connector.disabled = false) (hf : connector.refresh_freq = some f) :
    (la.status ≠ IndexingStatus.NOT_STARTED →
      (should_create_new_indexing connector (some la) model db_now = true ↔
        db_now - la.time_updated ≥ f)) ∧
    (la.status = IndexingStatus.NOT_STARTED →
      should_create_new_indexing connector (some la) model db_now = false) ∧
    (f = 0 → la.status ≠ IndexingStatus.NOT_STARTED → la.time_updated ≤ db_now →
      should_create_new_indexing connector (some la) model db_now = true) := by
  refine ⟨fun h => ?_, fun h => ?_, fun h0 h ht => ?_⟩
  · simp [should_create_new_indexing, hdis, hf, h]
  · simp [should_create_new_indexing, hdis, hf, h]
  · simp only [should_create_new_indexing, hdis, hf, h]
    simp [h, h0]
    omega

/-- Witness for C3: with `refresh_freq = 60` and a SUCCESS last attempt aged
exactly 60 seconds, a new attempt is scheduled; a NOT_STARTED last attempt is
not scheduled. -/
theorem claim_C3_cadence_witness :
    (should_create_new_indexing ⟨1, false, some 60, [7]⟩
        (some ⟨4, some 1, some 7, some 10, IndexingStatus.SUCCESS, 40, none⟩)
        ⟨10, IndexModelStatus.PRESENT⟩ 100 = true ↔ (100 : Int) - 40 ≥ 60) ∧
    (should_create_new_indexing ⟨1, false, some 60, [7]⟩
        (some ⟨4, some 1, some 7, some 10, IndexingStatus.NOT_STARTED, 40, none⟩)
        ⟨10, IndexModelStatus.PRESENT⟩ 100 = false) :=
  ⟨(claim_C3_cadence ⟨1, false, some 60, [7]⟩
      ⟨4, some 1, some 7, some 10, IndexingStatus.SUCCESS, 40, none⟩
      ⟨10, IndexModelStatus.PRESENT⟩ 100 60 rfl rfl).1 (by decide),
   (claim_C3_cadence ⟨1, false, some 60, [7]⟩
      ⟨4, some 1, some 7, some 10, IndexingStatus.NOT_STARTED, 40, none⟩
      ⟨10, IndexModelStatus.PRESENT⟩ 100 60 rfl rfl).2.1 rfl⟩

/-- Claim C7: `_mark_run_failed` always marks the attempt row failed through
the gateway (so a non-terminal row becomes FAILED with the given reason), and
it updates the CC-pair aggregate to FAILED exactly when the attempt's
embedding model is PRESENT and both foreign keys are non-null; in particular
a FUTURE-model attempt leaves the CC-pair rows unchanged. -/
theorem claim_C7_mark_run_failed (s : StoreState) (a : IndexAttempt) (r : String)
    (m : EmbeddingModel) (hm : attempt_embedding_model s a = some m) :
    ∃ s2, mark_run_failed s a r = Except.ok s2 ∧
      s2.index_attempts = (mark_attempt_failed s a.id r).index_attempts ∧
      (∀ b ∈ s.index_attempts, b.id = a.id → b.status ≠ IndexingStatus.SUCCESS →
        b.status ≠ IndexingStatus.FAILED → failed_row r s.now b ∈ s2.index_attempts) ∧
      (∀ cid kid, a.connector_id = some cid → a.credential_id = some kid →
        m.status = IndexModelStatus.PRESENT →
        s2.cc_pairs = (update_connector_credential_pair (mark_attempt_failed s a.id r)
          cid kid IndexingStatus.FAILED).cc_pairs) ∧
      ((m.status ≠ IndexModelStatus.PRESENT ∨ a.connector_id = none ∨
          a.credential_id = none) →
        s2.cc_pairs = s.cc_pairs) := by
  have hrow : ∀ b ∈ s.index_attempts, b.id = a.id → b.status ≠ IndexingStatus.SUCCESS →
      b.status ≠ IndexingStatus.FAILED →
      failed_row r s.now b ∈ (mark_attempt_failed s a.id r).index_attempts := by
    intro b hb hid hs hf
    simp only [mark_attempt_failed]
    have hfn : failed_row r s.now b = mark_row a.id r s.now b := by
      simp [mark_row, hid, hs, hf]
    rw [hfn]
    exact List.mem_map_of_mem _ hb
  rcases hc : a.connector_id with _ | cid
  · refine ⟨mark_attempt_failed s a.id r, ?_, rfl, hrow, ?_, ?_⟩
    · simp [mark_run_failed, hc]
    · intro cid kid hcid; simp [hc] at hcid
    · intro _; rfl
  · rcases hk : a.credential_id with _ | kid
    · refine ⟨mark_attempt_failed s a.id r, ?_, rfl, hrow, ?_, ?_⟩
      · simp [mark_run_failed, hc, hk]
      · intro cid kid _ hkid; simp [hk] at hkid
      · intro _; rfl
    · by_cases hp : m.status = IndexModelStatus.PRESENT
      · refine ⟨update_connector_credential_pair (mark_attempt_failed s a.id r) cid kid
          IndexingStatus.FAILED, ?_, rfl, hrow, ?_, ?_⟩
        · simp [mark_run_failed, hc, hk, hm, hp]
        · intro cid2 kid2 hcid hkid _
          cases hcid; cases hkid; rfl
        · intro hdisj
          rcases hdisj with h1 | h2 | h3
          · exact absurd hp h1
          · simp at h2
          · simp at h3
      · refine ⟨mark_attempt_failed s a.id r, ?_, rfl, hrow, ?_, ?_⟩
        · simp [mark_run_failed, hc, hk, hm, hp]
        · intro cid2 kid2 _ _ hps; exact absurd hps hp
        · intro _; rfl

/-- Witness for C7: instantiated on `markRunStore`, whose single attempt
belongs to the PRESENT model. -/
theorem claim_C7_mark_run_failed_witness :
    ∃ s2, mark_run_failed markRunStore markRunAttempt "boom" = Except.ok s2 ∧
      s2.index_attempts = (mark_attempt_failed markRunStore markRunAttempt.id
        "boom").index_attempts ∧
      (∀ b ∈ markRunStore.index_attempts, b.id = markRunAttempt.id →
        b.status ≠ IndexingStatus.SUCCESS → b.status ≠ IndexingStatus.FAILED →
        failed_row "boom" markRunStore.now b ∈ s2.index_attempts) ∧
      (∀ cid kid, markRunAttempt.connector_id = some cid →
        markRunAttempt.credential_id = some kid →
        (⟨10, IndexModelStatus.PRESENT⟩ : EmbeddingModel).status = IndexModelStatus.PRESENT →
        s2.cc_pairs = (update_connector_credential_pair
          (mark_attempt_failed markRunStore markRunAttempt.id "boom") cid kid
          IndexingStatus.FAILED).cc_pairs) ∧
      (((⟨10, IndexModelStatus.PRESENT⟩ : EmbeddingModel).status ≠ IndexModelStatus.PRESENT ∨
          markRunAttempt.connector_id = none ∨ markRunAttempt.credential_id = none) →
        s2.cc_pairs = markRunStore.cc_pairs) :=
  claim_C7_mark_run_failed markRunStore markRunAttempt "boom"
    ⟨10, IndexModelStatus.PRESENT⟩ (by decide)

/-- Claim C1: `check_index_swap` returns unchanged when there is no FUTURE
model; with a FUTURE model it raises (before any update) when the distinct
attempted cc-pair count exceeds the cc-pair count minus one, and when the two
are equal it demotes the PRESENT model to PAST, promotes the FUTURE model to
PRESENT, and resyncs every cc-pair, leaving all other store fields alone. -/
theorem claim_C1_check_index_swap (s : StoreState) :
    (get_secondary_db_embedding_model s = none →
      check_index_swap s = Except.ok { store := s, resynced := [] }) ∧
    (∀ mf, get_secondary_db_embedding_model s = some mf →
      ((s.cc_pairs.length : Int) - 1 <
          (count_unique_cc_pairs_with_index_attempts s mf.id : Int) →
        check_index_swap s =
          Except.error ("More unique indexings than cc pairs, should not occur", s)) ∧
      ((count_unique_cc_pairs_with_index_attempts s mf.id : Int) =
          (s.cc_pairs.length : Int) - 1 →
        ∀ mc, get_current_db_embedding_model s = some mc → mc.id ≠ mf.id →
          ∃ s2,
            check_index_swap s = Except.ok { store := s2, resynced := s.cc_pairs } ∧
            s2.embedding_models = s.embedding_models.map (fun em =>
              if em.id = mf.id then { em with status := IndexModelStatus.PRESENT }
              else if em.id = mc.id then { em with status := IndexModelStatus.PAST }
              else em) ∧
            s2.cc_pairs = s.cc_pairs ∧ s2.index_attempts = s.index_attempts ∧
            s2.connectors = s.connectors ∧ s2.now = s.now)) := by
  constructor
  · intro hsec
    simp [check_index_swap, get_connector_credential_pairs, hsec]
  · intro mf hsec
    constructor
    · intro hgt
      simp [check_index_swap, get_connector_credential_pairs, hsec, hgt]
    · intro heq mc hmc hne
      refine ⟨update_embedding_model_status
        (update_embedding_model_status s mc.id IndexModelStatus.PAST) mf.id
        IndexModelStatus.PRESENT, ?_, ?_, rfl, rfl, rfl, rfl⟩
      · simp [check_index_swap, get_connector_credential_pairs, hsec, heq, hmc]
      · simp only [update_embedding_model_status, List.map_map]
        congr 1
        funext em
        by_cases h1 : em.id = mf.id
        · have h2 : ¬ em.id = mc.id := fun h => hne (h ▸ h1 ▸ rfl)
          simp [Function.comp, h1, h2, Ne.symm hne]
        · by_cases h2 : em.id = mc.id
          · simp [Function.comp, h1, h2]
          · simp [Function.comp, h1, h2]

/-- Witness for C1: on `swapReadyStore` the eligible count (2 − 1) equals the
distinct attempted count for model 20, so the swap fires. -/
theorem claim_C1_check_index_swap_witness :
    ∃ s2,
      check_index_swap swapReadyStore =
        Except.ok { store := s2, resynced := swapReadyStore.cc_pairs } ∧
      s2.embedding_models = swapReadyStore.embedding_models.map (fun em =>
        if em.id = (20 : Nat) then { em with status := IndexModelStatus.PRESENT }
        else if em.id = (10 : Nat) then { em with status := IndexModelStatus.PAST }
        else em) ∧
      s2.cc_pairs = swapReadyStore.cc_pairs ∧
      s2.index_attempts = swapReadyStore.index_attempts ∧
      s2.connectors = swapReadyStore.connectors ∧ s2.now = swapReadyStore.now :=
  ((claim_C1_check_index_swap swapReadyStore).2 ⟨20, IndexModelStatus.FUTURE⟩
    (by decide)).2 (by decide) ⟨10, IndexModelStatus.PRESENT⟩ (by decide) (by decide)

/-! ### Row-level lemmas about the gateway mark -/

theorem failed_row_core (r : String) (t : Int) (a : IndexAttempt) :
    row_core (failed_row r t a) = row_core a := rfl

theorem mark_row_core (j : Nat) (r : String) (t : Int) (a : IndexAttempt) :
    row_core (mark_row j r t a) = row_core a := by
  unfold mark_row
  split
  · split
    · rfl
    · exact failed_row_core r t a
  · rfl

theorem mark_row_id (j : Nat) (r : String) (t : Int) (a : IndexAttempt) :
    (mark_row j r t a).id = a.id :=
  congrArg (fun p => p.1) (mark_row_core j r t a)

theorem mark_row_ne (j : Nat) (r : String) (t : Int) (a : IndexAttempt) (h : ¬ a.id = j) :
    mark_row j r t a = a := by
  simp [mark_row, h]

theorem mark_row_inprogress (j : Nat) (r : String) (t : Int) (a : IndexAttempt)
    (hid : a.id = j) (h : a.status = IndexingStatus.IN_PROGRESS) :
    mark_row j r t a = failed_row r t a := by
  simp [mark_row, hid, h]

theorem mark_row_not_started (j : Nat) (r : String) (t : Int) (a : IndexAttempt)
    (hid : a.id = j) (h : a.status = IndexingStatus.NOT_STARTED) :
    mark_row j r t a = failed_row r t a := by
  simp [mark_row, hid, h]

theorem find?_id_map (l : List IndexAttempt) (f : IndexAttempt → IndexAttempt)
    (hf : ∀ a, (f a).id = a.id) (i : Nat) :
    (l.map f).find? (fun a => a.id = i) = (l.find? (fun a => a.id = i)).map f := by
  induction l with
  | nil => rfl
  | cons b l ih =>
    by_cases hb : b.id = i
    · simp [List.find?, hf, hb]
    · simp [List.find?, hf, hb, ih]

theorem get_index_attempt_mark (s : StoreState) (j : Nat) (r : String) (i : Nat) :
    get_index_attempt (mark_attempt_failed s j r) i =
      (get_index_attempt s i).map (mark_row j r s.now) := by
  unfold get_index_attempt mark_attempt_failed
  exact find?_id_map _ _ (mark_row_id j r s.now) i

theorem get_index_attempt_found_id (s : StoreState) (i : Nat) (b : IndexAttempt)
    (h : get_index_attempt s i = some b) : b.id = i := by
  have := List.find?_some h
  exact of_decide_eq_true this

theorem get_index_attempt_mem (s : StoreState) (i : Nat) (b : IndexAttempt)
    (h : get_index_attempt s i = some b) : b ∈ s.index_attempts :=
  List.mem_of_find?_eq_some h

theorem get_index_attempt_mark_ne (s : StoreState) (j : Nat) (r : String) (i : Nat)
    (hij : i ≠ j) :
    get_index_attempt (mark_attempt_failed s j r) i = get_index_attempt s i := by
  rw [get_index_attempt_mark]
  cases hga : get_index_attempt s i with
  | none => rfl
  | some b =>
    have hb : b.id = i := get_index_attempt_found_id s i b hga
    simp [mark_row_ne j r s.now b (by rw [hb]; exact hij)]

theorem get_index_attempt_congr (s s2 : StoreState)
    (h : s2.index_attempts = s.index_attempts) (i : Nat) :
    get_index_attempt s2 i = get_index_attempt s i := by
  unfold get_index_attempt
  rw [h]

theorem find?_id_self (l : List IndexAttempt) (a : IndexAttempt)
    (hnd : (l.map (fun b => b.id)).Nodup) (ha : a ∈ l) :
    l.find? (fun b => b.id = a.id) = some a := by
  induction l with
  | nil => cases ha
  | cons b l ih =>
    rw [List.map_cons, List.nodup_cons] at hnd
    rcases List.mem_cons.mp ha with rfl | ha2
    · simp [List.find?]
    · have hbne : ¬ b.id = a.id := by
        intro h
        exact hnd.1 (h ▸ List.mem_map_of_mem (fun c => c.id) ha2)
      simp [List.find?, hbne]
      exact ih hnd.2 ha2

theorem get_index_attempt_self (s : StoreState) (a : IndexAttempt)
    (hnd : (s.index_attempts.map (fun b => b.id)).Nodup) (ha : a ∈ s.index_attempts) :
    get_index_attempt s a.id = some a :=
  find?_id_self s.index_attempts a hnd ha

/-! ### Skeleton lemmas -/

theorem same_skeleton_refl (s : StoreState) : same_skeleton s s :=
  ⟨rfl, rfl, rfl, rfl, rfl, rfl⟩

theorem same_skeleton_trans {s1 s2 s3 : StoreState} (h12 : same_skeleton s1 s2)
    (h23 : same_skeleton s2 s3) : same_skeleton s1 s3 :=
  ⟨h23.1.trans h12.1, h23.2.1.trans h12.2.1, h23.2.2.1.trans h12.2.2.1,
   h23.2.2.2.1.trans h12.2.2.2.1, h23.2.2.2.2.1.trans h12.2.2.2.2.1,
   h23.2.2.2.2.2.trans h12.2.2.2.2.2⟩

theorem same_skeleton_ids {s s2 : StoreState} (h : same_skeleton s s2) :
    s2.index_attempts.map (fun a => a.id) = s.index_attempts.map (fun a => a.id) := by
  have hcore := h.2.2.2.2.2
  calc s2.index_attempts.map (fun a => a.id)
      = (s2.index_attempts.map row_core).map (fun p => p.1) := by
        rw [List.map_map]; rfl
    _ = (s.index_attempts.map row_core).map (fun p => p.1) := by rw [hcore]
    _ = s.index_attempts.map (fun a => a.id) := by rw [List.map_map]; rfl

theorem same_skeleton_resolve {s s2 : StoreState} (h : same_skeleton s s2)
    (hres : ∀ a ∈ s.index_attempts, models_resolve s.embedding_models a) :
    ∀ b ∈ s2.index_attempts, models_resolve s2.embedding_models b := by
  intro b hb
  have hcore : row_core b ∈ s.index_attempts.map row_core := by
    rw [← h.2.2.2.2.2]
    exact List.mem_map_of_mem _ hb
  rcases List.mem_map.mp hcore with ⟨a, ha, hac⟩
  have hcid : a.connector_id = b.connector_id := congrArg (fun p => p.2.1) hac
  have hkid : a.credential_id = b.credential_id := congrArg (fun p => p.2.2.1) hac
  have hmid : a.embedding_model_id = b.embedding_model_id := congrArg (fun p => p.2.2.2) hac
  unfold models_resolve at *
  rw [h.2.2.1, ← hcid, ← hkid, ← hmid]
  exact hres a ha

theorem mark_attempt_failed_skeleton (s : StoreState) (j : Nat) (r : String) :
    same_skeleton s (mark_attempt_failed s j r) := by
  refine ⟨rfl, rfl, rfl, rfl, rfl, ?_⟩
  show (s.index_attempts.map (mark_row j r s.now)).map row_core =
    s.index_attempts.map row_core
  rw [List.map_map]
  congr 1
  funext a
  exact mark_row_core j r s.now a

theorem update_ccp_skeleton (s : StoreState) (c k : Nat) (st : IndexingStatus) :
    same_skeleton s (update_connector_credential_pair s c k st) :=
  ⟨rfl, rfl, rfl, rfl, rfl, rfl⟩

theorem update_ccp_index_attempts (s : StoreState) (c k : Nat) (st : IndexingStatus) :
    (update_connector_credential_pair s c k st).index_attempts = s.index_attempts := rfl

/-- `_mark_run_failed` returns normally whenever the attempt's model
reference resolves (or a foreign key is null), and then it only rewrites the
marked row's mutable fields. -/
theorem mark_run_failed_ok (s : StoreState) (a : IndexAttempt) (r : String)
    (hres : models_resolve s.embedding_models a) :
    ∃ s2, mark_run_failed s a r = Except.ok s2 ∧
      s2.index_attempts = (mark_attempt_failed s a.id r).index_attempts ∧
      same_skeleton s s2 := by
  rcases hc : a.connector_id with _ | cid
  · exact ⟨mark_attempt_failed s a.id r, by simp [mark_run_failed, hc], rfl,
      mark_attempt_failed_skeleton s a.id r⟩
  · rcases hk : a.credential_id with _ | kid
    · exact ⟨mark_attempt_failed s a.id r, by simp [mark_run_failed, hc, hk], rfl,
        mark_attempt_failed_skeleton s a.id r⟩
    · have hsome : (attempt_embedding_model s a).isSome := by
        have := hres (by rw [hc]; rfl) (by rw [hk]; rfl)
        exact this
      rcases hm : attempt_embedding_model s a with _ | m
      · rw [hm] at hsome; cases hsome
      · by_cases hp : m.status = IndexModelStatus.PRESENT
        · refine ⟨update_connector_credential_pair (mark_attempt_failed s a.id r) cid kid
            IndexingStatus.FAILED, by simp [mark_run_failed, hc, hk, hm, hp], ?_, ?_⟩
          · exact update_ccp_index_attempts _ cid kid IndexingStatus.FAILED
          · exact same_skeleton_trans (mark_attempt_failed_skeleton s a.id r)
              (update_ccp_skeleton _ cid kid IndexingStatus.FAILED)
        · exact ⟨mark_attempt_failed s a.id r, by simp [mark_run_failed, hc, hk, hm, hp],
            rfl, mark_attempt_failed_skeleton s a.id r⟩

/-- After a successful `_mark_run_failed`, rows with a different id read back
unchanged. -/
theorem mark_run_failed_get_ne (s s2 : StoreState) (a : IndexAttempt) (r : String)
    (hia : s2.index_attempts = (mark_attempt_failed s a.id r).index_attempts)
    (i : Nat) (hi : i ≠ a.id) :
    get_index_attempt s2 i = get_index_attempt s i := by
  rw [get_index_attempt_congr (mark_attempt_failed s a.id r) s2 hia i]
  exact get_index_attempt_mark_ne s a.id r i hi

theorem except_ok_bind {ε α β : Type} (a : α) (f : α → Except ε β) :
    (Except.ok a >>= f) = f a := rfl

/-! ### The reaper's first loop: frame facts -/

/-- One tracked entry of the first cleanup loop never raises (under
resolvable model references) and leaves rows with other ids unchanged. -/
theorem cleanup_completed_step_spec (s : StoreState) (copy : JobMap) (aid : Nat) (job : Job)
    (hres : ∀ b ∈ s.index_attempts, models_resolve s.embedding_models b) :
    ∃ s2 copy2, cleanup_completed_step s copy aid job = Except.ok (s2, copy2) ∧
      same_skeleton s s2 ∧
      ∀ i, i ≠ aid → get_index_attempt s2 i = get_index_attempt s i := by
  cases hga : get_index_attempt s aid with
  | none =>
    by_cases hd : job.done = true
    · refine ⟨s, jm_erase copy aid, ?_, same_skeleton_refl s, fun i _ => rfl⟩
      simp [cleanup_completed_step, hga, hd]
    · refine ⟨s, copy, ?_, same_skeleton_refl s, fun i _ => rfl⟩
      simp [cleanup_completed_step, hga, hd, is_indexing_job_marked_as_finished]
  | some ia =>
    have hmem := get_index_attempt_mem s aid ia hga
    have hid : ia.id = aid := get_index_attempt_found_id s aid ia hga
    by_cases hfin : ¬ job.done = true ∧
        ¬ is_indexing_job_marked_as_finished (get_index_attempt s aid) = true
    · refine ⟨s, copy, ?_, same_skeleton_refl s, fun i _ => rfl⟩
      simp only [cleanup_completed_step]
      rw [if_pos hfin]
    · by_cases hmark : ia.status = IndexingStatus.IN_PROGRESS ∨ job.status = JobStatus.error
      · obtain ⟨s2, hok, hia2, hsk⟩ :=
          mark_run_failed_ok s ia UNEXPECTED_STATE_FAILURE_REASON (hres ia hmem)
        refine ⟨s2, jm_erase copy aid, ?_, hsk, fun i hi => ?_⟩
        · simp only [cleanup_completed_step]
          rw [if_neg hfin]
          simp [hga, hmark, hok, Except.map]
        · exact mark_run_failed_get_ne s s2 ia UNEXPECTED_STATE_FAILURE_REASON hia2 i
            (by rw [hid]; exact hi)
      · refine ⟨s, jm_erase copy aid, ?_, same_skeleton_refl s, fun i _ => rfl⟩
        simp only [cleanup_completed_step]
        rw [if_neg hfin]
        simp [hga, hmark]

/-- The whole first cleanup loop: total, skeleton-preserving, and rows whose
ids are not tracked read back unchanged. -/
theorem cleanup_completed_jobs_spec (entries : List (Nat × Job)) :
    ∀ s copyJobs,
    (∀ b ∈ s.index_attempts, models_resolve s.embedding_models b) →
    ∃ s1 copy1, cleanup_completed_jobs s copyJobs entries = Except.ok (s1, copy1) ∧
      same_skeleton s s1 ∧
      ∀ i, (∀ e ∈ entries, e.1 ≠ i) → get_index_attempt s1 i = get_index_attempt s i := by
  induction entries with
  | nil =>
    intro s copy _hres
    exact ⟨s, copy, rfl, same_skeleton_refl s, fun i _ => rfl⟩
  | cons e rest ih =>
    intro s copy hres
    obtain ⟨aid, job⟩ := e
    obtain ⟨s2, copy2, hstep, hsk2, hget2⟩ := cleanup_completed_step_spec s copy aid job hres
    obtain ⟨s1, copy1, hrun, hsk1, hget1⟩ := ih s2 copy2 (same_skeleton_resolve hsk2 hres)
    refine ⟨s1, copy1, ?_, same_skeleton_trans hsk2 hsk1, fun i hi => ?_⟩
    · simp [cleanup_completed_jobs, hstep, except_ok_bind, hrun]
    · have hrest : ∀ e ∈ rest, e.1 ≠ i := fun e he => hi e (List.mem_cons_of_mem _ he)
      have haid : aid ≠ i := hi (aid, job) (List.mem_cons_self _ _)
      rw [hget1 i hrest, hget2 i (Ne.symm haid)]

/-! ### The in-progress sweep: frame facts -/

theorem same_skeleton_core_mem {s s2 : StoreState} (h : same_skeleton s s2)
    {b : IndexAttempt} (hb : b ∈ s2.index_attempts) :
    ∃ a ∈ s.index_attempts, row_core a = row_core b := by
  have hcore : row_core b ∈ s.index_attempts.map row_core := by
    rw [← h.2.2.2.2.2]
    exact List.mem_map_of_mem _ hb
  rcases List.mem_map.mp hcore with ⟨a, ha, hac⟩
  exact ⟨a, ha, hac⟩

theorem same_skeleton_conn_at {s s2 : StoreState} (h : same_skeleton s s2)
    (i : Nat) (cidOpt : Option Nat)
    (hb : ∀ b ∈ s.index_attempts, b.id = i → b.connector_id = cidOpt) :
    ∀ b ∈ s2.index_attempts, b.id = i → b.connector_id = cidOpt := by
  intro b hb2 hbid
  obtain ⟨a, ha, hac⟩ := same_skeleton_core_mem h hb2
  have hid : a.id = b.id := congrArg (fun p => p.1) hac
  have hconn : a.connector_id = b.connector_id := congrArg (fun p => p.2.1) hac
  rw [← hconn]
  exact hb a ha (hid.trans hbid)

theorem stall_cancelled_cons (jobs : JobMap) (timeout now : Int) (ia : IndexAttempt)
    (rest : List IndexAttempt) :
    stall_cancelled jobs timeout now (ia :: rest) =
      (if jm_member jobs ia.id = true ∧ now - ia.time_updated > 60 * 60 * timeout
       then [ia.id] else []) ++ stall_cancelled jobs timeout now rest := by
  simp only [stall_cancelled, List.filter_cons]
  cases hb : (jm_member jobs ia.id && decide (now - ia.time_updated > 60 * 60 * timeout)) with
  | false =>
    have hnot : ¬(jm_member jobs ia.id = true ∧
        now - ia.time_updated > 60 * 60 * timeout) := by
      rintro ⟨h1, h2⟩
      rw [h1, decide_eq_true h2] at hb
      cases hb
    rw [if_neg hnot]
    simp
  | true =>
    have h1 : jm_member jobs ia.id = true := ((Bool.and_eq_true _ _).mp hb).1
    have h2 : now - ia.time_updated > 60 * 60 * timeout :=
      of_decide_eq_true ((Bool.and_eq_true _ _).mp hb).2
    rw [if_pos (show jm_member jobs ia.id = true ∧
      now - ia.time_updated > 60 * 60 * timeout from ⟨h1, h2⟩)]
    simp

/-- One fetched batch of the stall sweep: total under resolvable references,
skeleton-preserving; the cancel trace grows by exactly the stalled tracked
ids of the batch; rows with ids outside the batch read back unchanged. -/
theorem cleanup_inprogress_attempts_spec (jobs : JobMap) (timeout : Int)
    (attempts : List IndexAttempt) :
    ∀ s cancels,
    (∀ b ∈ s.index_attempts, models_resolve s.embedding_models b) →
    (∀ ia ∈ attempts, models_resolve s.embedding_models ia) →
    ∃ s1 cancels1, cleanup_inprogress_attempts jobs timeout s cancels attempts =
        Except.ok (s1, cancels1) ∧ same_skeleton s s1 ∧
      cancels1 = cancels ++ stall_cancelled jobs timeout s.now attempts ∧
      ∀ i, (∀ ia ∈ attempts, ia.id ≠ i) →
        get_index_attempt s1 i = get_index_attempt s i := by
  induction attempts with
  | nil =>
    intro s cancels _ _
    exact ⟨s, cancels, rfl, same_skeleton_refl s, by simp [stall_cancelled], fun i _ => rfl⟩
  | cons ia rest ih =>
    intro s cancels hres hares
    have hia_res : models_resolve s.embedding_models ia := hares ia (List.mem_cons_self _ _)
    have hrest_res : ∀ b ∈ rest, models_resolve s.embedding_models b :=
      fun b hb => hares b (List.mem_cons_of_mem _ hb)
    by_cases hjm : jm_member jobs ia.id = true
    · by_cases hst : s.now - ia.time_updated > 60 * 60 * timeout
      · obtain ⟨s2, hok, hia2, hsk⟩ := mark_run_failed_ok s ia FROZEN_FAILURE_REASON hia_res
        obtain ⟨s1, cancels1, hrun, hsk1, hcan, hget⟩ := ih s2 (cancels ++ [ia.id])
          (same_skeleton_resolve hsk hres)
          (fun b hb => by
            unfold models_resolve at *
            rw [hsk.2.2.1]
            exact hrest_res b hb)
        rw [hsk.2.2.2.1] at hcan
        refine ⟨s1, cancels1, ?_, same_skeleton_trans hsk hsk1, ?_, fun i hi => ?_⟩
        · simp only [cleanup_inprogress_attempts]
          rw [if_pos hjm, if_pos hst, hok]
          exact hrun
        · rw [hcan, stall_cancelled_cons, if_pos ⟨hjm, hst⟩]
          simp
        · rw [hget i (fun b hb => hi b (List.mem_cons_of_mem _ hb))]
          exact mark_run_failed_get_ne s s2 ia FROZEN_FAILURE_REASON hia2 i
            (Ne.symm (hi ia (List.mem_cons_self _ _)))
      · obtain ⟨s1, cancels1, hrun, hsk1, hcan, hget⟩ := ih s cancels hres hrest_res
        refine ⟨s1, cancels1, ?_, hsk1, ?_, fun i hi => ?_⟩
        · simp only [cleanup_inprogress_attempts]
          rw [if_pos hjm, if_neg hst]
          exact hrun
        · rw [hcan, stall_cancelled_cons, if_neg (fun h => hst h.2)]
          simp
        · exact hget i (fun b hb => hi b (List.mem_cons_of_mem _ hb))
    · obtain ⟨s2, hok, hia2, hsk⟩ :=
        mark_run_failed_ok s ia UNEXPECTED_STATE_FAILURE_REASON hia_res
      obtain ⟨s1, cancels1, hrun, hsk1, hcan, hget⟩ := ih s2 cancels
        (same_skeleton_resolve hsk hres)
        (fun b hb => by
          unfold models_resolve at *
          rw [hsk.2.2.1]
          exact hrest_res b hb)
      rw [hsk.2.2.2.1] at hcan
      refine ⟨s1, cancels1, ?_, same_skeleton_trans hsk hsk1, ?_, fun i hi => ?_⟩
      · simp only [cleanup_inprogress_attempts]
        rw [if_neg hjm, hok]
        exact hrun
      · rw [hcan, stall_cancelled_cons, if_neg (fun h => hjm h.1)]
        simp
      · rw [hget i (fun b hb => hi b (List.mem_cons_of_mem _ hb))]
        exact mark_run_failed_get_ne s s2 ia UNEXPECTED_STATE_FAILURE_REASON hia2 i
          (Ne.symm (hi ia (List.mem_cons_self _ _)))

theorem mem_inprogress (s : StoreState) (cid : Nat) (ia : IndexAttempt) :
    ia ∈ get_inprogress_index_attempts s cid ↔
      ia ∈ s.index_attempts ∧ ia.connector_id = some cid ∧
        ia.status = IndexingStatus.IN_PROGRESS := by
  unfold get_inprogress_index_attempts
  simp [List.mem_filter]

theorem mem_stall_cancelled (jobs : JobMap) (timeout now : Int)
    (attempts : List IndexAttempt) (i : Nat) :
    i ∈ stall_cancelled jobs timeout now attempts ↔
      ∃ ia ∈ attempts, ia.id = i ∧ jm_member jobs ia.id = true ∧
        now - ia.time_updated > 60 * 60 * timeout := by
  unfold stall_cancelled
  simp only [List.mem_map, List.mem_filter, Bool.and_eq_true, decide_eq_true_eq]
  constructor
  · rintro ⟨ia, ⟨hmem, hjm, hst⟩, hid⟩
    exact ⟨ia, hmem, hid, hjm, hst⟩
  · rintro ⟨ia, hmem, hid, hjm, hst⟩
    exact ⟨ia, ⟨hmem, hjm, hst⟩, hid⟩

/-- The connector walk of the sweep: total under resolvable references,
skeleton-preserving; rows whose connector reference matches none of the
walked connectors read back unchanged and contribute no cancellations. -/
theorem cleanup_inprogress_connectors_spec (jobs : JobMap) (timeout : Int)
    (cs : List Connector) :
    ∀ s cancels,
    (∀ b ∈ s.index_attempts, models_resolve s.embedding_models b) →
    ∃ s1 cancels1, cleanup_inprogress_connectors jobs timeout s cancels cs =
        Except.ok (s1, cancels1) ∧ same_skeleton s s1 ∧
      ∀ i cidOpt, (∀ b ∈ s.index_attempts, b.id = i → b.connector_id = cidOpt) →
        (∀ c ∈ cs, cidOpt ≠ some c.id) →
        (get_index_attempt s1 i = get_index_attempt s i ∧ (i ∈ cancels1 ↔ i ∈ cancels)) := by
  induction cs with
  | nil =>
    intro s cancels _
    exact ⟨s, cancels, rfl, same_skeleton_refl s, fun i _ _ _ => ⟨rfl, Iff.rfl⟩⟩
  | cons c rest ih =>
    intro s cancels hres
    have hfet_res : ∀ ia ∈ get_inprogress_index_attempts s c.id,
        models_resolve s.embedding_models ia := by
      intro ia hia
      exact hres ia ((mem_inprogress s c.id ia).mp hia).1
    obtain ⟨s2, cancels2, hrun2, hsk2, hcan2, hget2⟩ :=
      cleanup_inprogress_attempts_spec jobs timeout (get_inprogress_index_attempts s c.id)
        s cancels hres hfet_res
    obtain ⟨s1, cancels1, hrun1, hsk1, hframe1⟩ := ih s2 cancels2
      (same_skeleton_resolve hsk2 hres)
    refine ⟨s1, cancels1, ?_, same_skeleton_trans hsk2 hsk1, ?_⟩
    · simp [cleanup_inprogress_connectors, hrun2, except_ok_bind, hrun1]
    · intro i cidOpt hat hcs
      have hcne : cidOpt ≠ some c.id := hcs c (List.mem_cons_self _ _)
      have hfids : ∀ ia ∈ get_inprogress_index_attempts s c.id, ia.id ≠ i := by
        intro ia hia hidi
        obtain ⟨hmem2, hconn, _⟩ := (mem_inprogress s c.id ia).mp hia
        exact hcne (by rw [← hat ia hmem2 hidi]; exact hconn)
      have hg2 : get_index_attempt s2 i = get_index_attempt s i := hget2 i hfids
      have hat2 : ∀ b ∈ s2.index_attempts, b.id = i → b.connector_id = cidOpt :=
        same_skeleton_conn_at hsk2 i cidOpt hat
      obtain ⟨hg1, hc1⟩ := hframe1 i cidOpt hat2
        (fun c2 hc2 => hcs c2 (List.mem_cons_of_mem _ hc2))
      refine ⟨hg1.trans hg2, ?_⟩
      rw [hc1, hcan2]
      have hnostall : i ∉ stall_cancelled jobs timeout s.now
          (get_inprogress_index_attempts s c.id) := by
        intro hmemi
        obtain ⟨ia, hia, hid, _, _⟩ := (mem_stall_cancelled _ _ _ _ _).mp hmemi
        exact hfids ia hia hid
      simp [List.mem_append, hnostall]

/-! ### Tracked-map helpers and sequential-composition lemmas -/

theorem lookup_none_keys : ∀ (jm : JobMap) (i : Nat), jm.lookup i = none →
    ∀ e ∈ jm, e.1 ≠ i
  | [], _, _, e, he => absurd he (List.not_mem_nil e)
  | (k, v) :: rest, i, h, e, he => by
    cases hbeq : (i == k) with
    | true =>
      exfalso
      simp [List.lookup, hbeq] at h
    | false =>
      have hrest : rest.lookup i = none := by
        simpa [List.lookup, hbeq] using h
      rcases List.mem_cons.mp he with rfl | he2
      · exact fun hk => (beq_eq_false_iff_ne.mp hbeq) hk.symm
      · exact lookup_none_keys rest i hrest e he2

theorem lookup_some_split : ∀ (jm : JobMap) (i : Nat) (j : Job), jm.lookup i = some j →
    ∃ j1 j2, jm = j1 ++ (i, j) :: j2 ∧ ∀ e ∈ j1, e.1 ≠ i
  | [], _, _, h => by cases h
  | (k, v) :: rest, i, j, h => by
    cases hbeq : (i == k) with
    | true =>
      have hik : i = k := eq_of_beq hbeq
      have hv : v = j := by
        simpa [List.lookup, hbeq] using h
      subst hik
      subst hv
      exact ⟨[], rest, rfl, fun e he => absurd he (List.not_mem_nil e)⟩
    | false =>
      have hrest : rest.lookup i = some j := by
        simpa [List.lookup, hbeq] using h
      obtain ⟨j1, j2, heq, hkeys⟩ := lookup_some_split rest i j hrest
      refine ⟨(k, v) :: j1, j2, by rw [heq]; rfl, ?_⟩
      intro e he
      rcases List.mem_cons.mp he with rfl | he2
      · exact fun hk => (beq_eq_false_iff_ne.mp hbeq) hk.symm
      · exact hkeys e he2

theorem cleanup_completed_jobs_append (xs ys : List (Nat × Job)) :
    ∀ s copy, cleanup_completed_jobs s copy (xs ++ ys) =
      (cleanup_completed_jobs s copy xs).bind
        (fun p => cleanup_completed_jobs p.1 p.2 ys) := by
  induction xs with
  | nil => intro s copy; rfl
  | cons e xs ih =>
    intro s copy
    obtain ⟨aid, job⟩ := e
    simp only [List.cons_append, cleanup_completed_jobs]
    cases hstep : cleanup_completed_step s copy aid job with
    | error e2 => rfl
    | ok p =>
      obtain ⟨s2, copy2⟩ := p
      exact ih s2 copy2

theorem cleanup_inprogress_attempts_append (jobs : JobMap) (timeout : Int)
    (xs ys : List IndexAttempt) :
    ∀ s cancels, cleanup_inprogress_attempts jobs timeout s cancels (xs ++ ys) =
      (cleanup_inprogress_attempts jobs timeout s cancels xs).bind
        (fun p => cleanup_inprogress_attempts jobs timeout p.1 p.2 ys) := by
  induction xs with
  | nil => intro s cancels; rfl
  | cons ia xs ih =>
    intro s cancels
    simp only [List.cons_append, cleanup_inprogress_attempts]
    by_cases hjm : jm_member jobs ia.id = true
    · rw [if_pos hjm, if_pos hjm]
      by_cases hst : s.now - ia.time_updated > 60 * 60 * timeout
      · rw [if_pos hst, if_pos hst]
        cases hmk : mark_run_failed s ia FROZEN_FAILURE_REASON with
        | error e => rfl
        | ok s2 => exact ih s2 (cancels ++ [ia.id])
      · rw [if_neg hst, if_neg hst]
        exact ih s cancels
    · rw [if_neg hjm, if_neg hjm]
      cases hmk : mark_run_failed s ia UNEXPECTED_STATE_FAILURE_REASON with
      | error e => rfl
      | ok s2 => exact ih s2 cancels

theorem cleanup_inprogress_connectors_append (jobs : JobMap) (timeout : Int)
    (xs ys : List Connector) :
    ∀ s cancels, cleanup_inprogress_connectors jobs timeout s cancels (xs ++ ys) =
      (cleanup_inprogress_connectors jobs timeout s cancels xs).bind
        (fun p => cleanup_inprogress_connectors jobs timeout p.1 p.2 ys) := by
  induction xs with
  | nil => intro s cancels; rfl
  | cons c xs ih =>
    intro s cancels
    simp only [List.cons_append, cleanup_inprogress_connectors]
    cases hrun : cleanup_inprogress_attempts jobs timeout s cancels
        (get_inprogress_index_attempts s c.id) with
    | error e => rfl
    | ok p =>
      obtain ⟨s2, cancels2⟩ := p
      exact ih s2 cancels2

/-! ### Locating one attempt inside the sweep -/

theorem eq_of_mem_id_nodup {l : List IndexAttempt}
    (hnd : (l.map (fun b => b.id)).Nodup) {a b : IndexAttempt}
    (ha : a ∈ l) (hb : b ∈ l) (hid : b.id = a.id) : b = a := by
  induction l with
  | nil => cases ha
  | cons x l ih =>
    rw [List.map_cons, List.nodup_cons] at hnd
    rcases List.mem_cons.mp ha with rfl | ha2
    · rcases List.mem_cons.mp hb with rfl | hb2
      · rfl
      · exact absurd (by rw [← hid]; exact List.mem_map_of_mem _ hb2) hnd.1
    · rcases List.mem_cons.mp hb with rfl | hb2
      · exact absurd (by rw [hid]; exact List.mem_map_of_mem _ ha2) hnd.1
      · exact ih hnd.2 ha2 hb2

theorem split_ids_ne_gen {α : Type} (f : α → Nat) {l1 l2 : List α} {c : α}
    (hnd : ((l1 ++ c :: l2).map f).Nodup) :
    (∀ x ∈ l1, f x ≠ f c) ∧ (∀ x ∈ l2, f x ≠ f c) := by
  rw [List.map_append, List.map_cons, List.nodup_append] at hnd
  obtain ⟨_, h2, hdisj⟩ := hnd
  rw [List.nodup_cons] at h2
  constructor
  · intro x hx hfx
    exact hdisj (List.mem_map_of_mem f hx) (by rw [hfx]; exact List.mem_cons_self _ _)
  · intro x hx hfx
    exact h2.1 (by rw [← hfx]; exact List.mem_map_of_mem f hx)

theorem get_index_attempt_mark_self (s : StoreState) (a : IndexAttempt) (r : String)
    (hga : get_index_attempt s a.id = some a)
    (hstat : a.status = IndexingStatus.IN_PROGRESS) :
    get_index_attempt (mark_attempt_failed s a.id r) a.id =
      some (failed_row r s.now a) := by
  rw [get_index_attempt_mark, hga]
  simp [mark_row_inprogress a.id r s.now a rfl hstat]

/-- After one attempt's own sweep action has produced store `s4` holding row
`v` under the attempt's id, the rest of the sweep (the remainder of the batch
and the remaining connectors) neither rewrites that row nor cancels that id. -/
theorem sweep_finish (jobs : JobMap) (timeout : Int) (s1 s4 : StoreState)
    (cancels4 : List Nat) (a v : IndexAttempt) (c : Connector)
    (f2 : List IndexAttempt) (l2 : List Connector)
    (hsk14 : same_skeleton s1 s4)
    (hres1 : ∀ b ∈ s1.index_attempts, models_resolve s1.embedding_models b)
    (hget4 : get_index_attempt s4 a.id = some v)
    (hat1 : ∀ b ∈ s1.index_attempts, b.id = a.id → b.connector_id = some c.id)
    (hf2res : ∀ b ∈ f2, models_resolve s4.embedding_models b)
    (hf2ne : ∀ b ∈ f2, b.id ≠ a.id)
    (hl2ne : ∀ x ∈ l2, (some c.id : Option Nat) ≠ some x.id) :
    ∃ s6 cancels6,
      ((cleanup_inprogress_attempts jobs timeout s4 cancels4 f2).bind
        (fun p => cleanup_inprogress_connectors jobs timeout p.1 p.2 l2)) =
        Except.ok (s6, cancels6) ∧
      get_index_attempt s6 a.id = some v ∧ (a.id ∈ cancels6 ↔ a.id ∈ cancels4) := by
  have hres4 : ∀ b ∈ s4.index_attempts, models_resolve s4.embedding_models b :=
    same_skeleton_resolve hsk14 hres1
  obtain ⟨s5, cancels5, hrun5, hsk5, hcan5, hget5⟩ :=
    cleanup_inprogress_attempts_spec jobs timeout f2 s4 cancels4 hres4 hf2res
  have hg5 : get_index_attempt s5 a.id = some v := by
    rw [hget5 a.id hf2ne]
    exact hget4
  have hc5 : a.id ∈ cancels5 ↔ a.id ∈ cancels4 := by
    rw [hcan5]
    have hns : a.id ∉ stall_cancelled jobs timeout s4.now f2 := by
      intro hmem'
      obtain ⟨ia, hia, hid, _, _⟩ := (mem_stall_cancelled _ _ _ _ _).mp hmem'
      exact hf2ne ia hia hid
    simp [List.mem_append, hns]
  obtain ⟨s6, cancels6, hrun6, hsk6, hframe6⟩ :=
    cleanup_inprogress_connectors_spec jobs timeout l2 s5 cancels5
      (same_skeleton_resolve hsk5 hres4)
  have hat5 : ∀ b ∈ s5.index_attempts, b.id = a.id → b.connector_id = some c.id :=
    same_skeleton_conn_at (same_skeleton_trans hsk14 hsk5) a.id (some c.id) hat1
  obtain ⟨hg6, hc6⟩ := hframe6 a.id (some c.id) hat5 hl2ne
  refine ⟨s6, cancels6, ?_, hg6.trans hg5, hc6.trans hc5⟩
  rw [hrun5]
  exact hrun6

/-- What the in-progress sweep does to one IN_PROGRESS attempt whose
connector row exists: untracked ids are failed with the killed-mid-run
reason; tracked ids are cancelled and failed with the frozen reason exactly
when strictly stale; tracked fresh ids are left alone. -/
theorem sweep_hits_attempt (jobs : JobMap) (timeout : Int) (s1 : StoreState)
    (a : IndexAttempt) (c : Connector)
    (hnd_a : (s1.index_attempts.map (fun b => b.id)).Nodup)
    (hnd_c : (s1.connectors.map (fun x => x.id)).Nodup)
    (hres1 : ∀ b ∈ s1.index_attempts, models_resolve s1.embedding_models b)
    (hget : get_index_attempt s1 a.id = some a)
    (hstat : a.status = IndexingStatus.IN_PROGRESS)
    (hconn : a.connector_id = some c.id) (hc : c ∈ s1.connectors) :
    ∃ s6 cancels6,
      cleanup_inprogress_connectors jobs timeout s1 [] s1.connectors =
        Except.ok (s6, cancels6) ∧
      ((jm_member jobs a.id = false →
        get_index_attempt s6 a.id =
          some (failed_row UNEXPECTED_STATE_FAILURE_REASON s1.now a) ∧ a.id ∉ cancels6) ∧
       (jm_member jobs a.id = true → s1.now - a.time_updated > 60 * 60 * timeout →
        get_index_attempt s6 a.id =
          some (failed_row FROZEN_FAILURE_REASON s1.now a) ∧ a.id ∈ cancels6) ∧
       (jm_member jobs a.id = true → ¬ s1.now - a.time_updated > 60 * 60 * timeout →
        get_index_attempt s6 a.id = some a ∧ a.id ∉ cancels6)) := by
  have hamem : a ∈ s1.index_attempts := get_index_attempt_mem s1 a.id a hget
  have hat1 : ∀ b ∈ s1.index_attempts, b.id = a.id → b.connector_id = some c.id := by
    intro b hb hbid
    rw [eq_of_mem_id_nodup hnd_a hamem hb hbid]
    exact hconn
  obtain ⟨l1, l2, hsplit⟩ := List.append_of_mem hc
  have hnc := hnd_c
  rw [hsplit] at hnc
  obtain ⟨hl1ne, hl2ne⟩ := split_ids_ne_gen (fun x : Connector => x.id) hnc
  have hl2ne' : ∀ x ∈ l2, (some c.id : Option Nat) ≠ some x.id := by
    intro x hx he
    injection he with h2
    exact hl2ne x hx h2.symm
  obtain ⟨s2, cancels2, hrun2, hsk2, hframe2⟩ :=
    cleanup_inprogress_connectors_spec jobs timeout l1 s1 [] hres1
  obtain ⟨hg2, hcan2⟩ := hframe2 a.id (some c.id) hat1
    (fun x hx he => hl1ne x hx (by injection he with h2; exact h2.symm))
  have hnin2 : a.id ∉ cancels2 := fun h => List.not_mem_nil a.id (hcan2.mp h)
  have hnd_a2 : (s2.index_attempts.map (fun b => b.id)).Nodup := by
    rw [same_skeleton_ids hsk2]
    exact hnd_a
  have hres2 : ∀ b ∈ s2.index_attempts, models_resolve s2.embedding_models b :=
    same_skeleton_resolve hsk2 hres1
  have hget2 : get_index_attempt s2 a.id = some a := by rw [hg2]; exact hget
  have hamem2 : a ∈ s2.index_attempts := get_index_attempt_mem s2 a.id a hget2
  have hafetch : a ∈ get_inprogress_index_attempts s2 c.id :=
    (mem_inprogress s2 c.id a).mpr ⟨hamem2, hconn, hstat⟩
  obtain ⟨f1, f2, hfsplit⟩ := List.append_of_mem hafetch
  have hnd_fetch : ((get_inprogress_index_attempts s2 c.id).map (fun b => b.id)).Nodup := by
    unfold get_inprogress_index_attempts
    exact List.Nodup.sublist (List.Sublist.map _ (List.filter_sublist _)) hnd_a2
  rw [hfsplit] at hnd_fetch
  obtain ⟨hf1ne, hf2ne⟩ := split_ids_ne_gen (fun b : IndexAttempt => b.id) hnd_fetch
  have hfetch_res : ∀ ia ∈ get_inprogress_index_attempts s2 c.id,
      models_resolve s2.embedding_models ia :=
    fun ia hia => hres2 ia ((mem_inprogress s2 c.id ia).mp hia).1
  obtain ⟨s3, cancels3, hrun3, hsk3, hcan3, hget3⟩ :=
    cleanup_inprogress_attempts_spec jobs timeout f1 s2 cancels2 hres2
      (fun ia hia => hfetch_res ia (by rw [hfsplit]; exact List.mem_append_left _ hia))
  have hg3 : get_index_attempt s3 a.id = some a := by
    rw [hget3 a.id hf1ne]
    exact hget2
  have hnin3 : a.id ∉ cancels3 := by
    rw [hcan3]
    intro hmem'
    rcases List.mem_append.mp hmem' with h | h
    · exact hnin2 h
    · obtain ⟨ia, hia, hid, _, _⟩ := (mem_stall_cancelled _ _ _ _ _).mp h
      exact hf1ne ia hia hid
  have hsk13 : same_skeleton s1 s3 := same_skeleton_trans hsk2 hsk3
  have hnow3 : s3.now = s1.now := hsk13.2.2.2.1
  have hares3 : models_resolve s3.embedding_models a := by
    unfold models_resolve at *
    rw [hsk13.2.2.1]
    exact hres1 a hamem
  have hf2res3 : ∀ b ∈ f2, models_resolve s3.embedding_models b := by
    intro b hb
    unfold models_resolve at *
    rw [hsk3.2.2.1]
    exact hfetch_res b
      (by rw [hfsplit]; exact List.mem_append_right _ (List.mem_cons_of_mem _ hb))
  by_cases hjm : jm_member jobs a.id = true
  · by_cases hst : s1.now - a.time_updated > 60 * 60 * timeout
    · -- tracked and stalled: cancelled, failed with the frozen reason
      obtain ⟨s4, hok4, hia4, hsk4⟩ := mark_run_failed_ok s3 a FROZEN_FAILURE_REASON hares3
      have hget4 : get_index_attempt s4 a.id =
          some (failed_row FROZEN_FAILURE_REASON s1.now a) := by
        rw [get_index_attempt_congr _ _ hia4, ← hnow3]
        exact get_index_attempt_mark_self s3 a _ hg3 hstat
      have hstepEq : cleanup_inprogress_attempts jobs timeout s3 cancels3 (a :: f2) =
          cleanup_inprogress_attempts jobs timeout s4 (cancels3 ++ [a.id]) f2 := by
        simp only [cleanup_inprogress_attempts]
        rw [if_pos hjm, if_pos (by rw [hnow3]; exact hst), hok4]
      obtain ⟨s6, cancels6, hfin, hv6, hcm⟩ := sweep_finish jobs timeout s1 s4
        (cancels3 ++ [a.id]) a (failed_row FROZEN_FAILURE_REASON s1.now a) c f2 l2
        (same_skeleton_trans hsk13 hsk4) hres1 hget4 hat1
        (fun b hb => by
          unfold models_resolve at *
          rw [hsk4.2.2.1]
          exact hf2res3 b hb)
        hf2ne hl2ne'
      refine ⟨s6, cancels6, ?_, ?_, ?_, ?_⟩
      · rw [hsplit, cleanup_inprogress_connectors_append, hrun2]
        show (cleanup_inprogress_connectors jobs timeout s2 cancels2 (c :: l2)) = _
        simp only [cleanup_inprogress_connectors]
        rw [hfsplit, cleanup_inprogress_attempts_append, hrun3]
        show ((cleanup_inprogress_attempts jobs timeout s3 cancels3 (a :: f2)).bind
          (fun p => cleanup_inprogress_connectors jobs timeout p.1 p.2 l2)) = _
        rw [hstepEq]
        exact hfin
      · intro hfalse
        rw [hjm] at hfalse
        cases hfalse
      · intro _ _
        exact ⟨hv6, hcm.mpr (List.mem_append_right _ (List.mem_cons_self _ _))⟩
      · intro _ hnst
        exact absurd hst hnst
    · -- tracked and fresh: skipped
      have hstepEq : cleanup_inprogress_attempts jobs timeout s3 cancels3 (a :: f2) =
          cleanup_inprogress_attempts jobs timeout s3 cancels3 f2 := by
        simp only [cleanup_inprogress_attempts]
        rw [if_pos hjm, if_neg (by rw [hnow3]; exact hst)]
      obtain ⟨s6, cancels6, hfin, hv6, hcm⟩ := sweep_finish jobs timeout s1 s3
        cancels3 a a c f2 l2 hsk13 hres1 hg3 hat1 hf2res3 hf2ne hl2ne'
      refine ⟨s6, cancels6, ?_, ?_, ?_, ?_⟩
      · rw [hsplit, cleanup_inprogress_connectors_append, hrun2]
        show (cleanup_inprogress_connectors jobs timeout s2 cancels2 (c :: l2)) = _
        simp only [cleanup_inprogress_connectors]
        rw [hfsplit, cleanup_inprogress_attempts_append, hrun3]
        show ((cleanup_inprogress_attempts jobs timeout s3 cancels3 (a :: f2)).bind
          (fun p => cleanup_inprogress_connectors jobs timeout p.1 p.2 l2)) = _
        rw [hstepEq]
        exact hfin
      · intro hfalse
        rw [hjm] at hfalse
        cases hfalse
      · intro _ hst2
        exact absurd hst2 hst
      · intro _ _
        exact ⟨hv6, fun hmem => hnin3 (hcm.mp hmem)⟩
  · -- untracked: failed with the killed-mid-run reason, never cancelled
    have hjmf : jm_member jobs a.id = false := by
      cases hv : jm_member jobs a.id with
      | false => rfl
      | true => exact absurd hv hjm
    obtain ⟨s4, hok4, hia4, hsk4⟩ :=
      mark_run_failed_ok s3 a UNEXPECTED_STATE_FAILURE_REASON hares3
    have hget4 : get_index_attempt s4 a.id =
        some (failed_row UNEXPECTED_STATE_FAILURE_REASON s1.now a) := by
      rw [get_index_attempt_congr _ _ hia4, ← hnow3]
      exact get_index_attempt_mark_self s3 a _ hg3 hstat
    have hstepEq : cleanup_inprogress_attempts jobs timeout s3 cancels3 (a :: f2) =
        cleanup_inprogress_attempts jobs timeout s4 cancels3 f2 := by
      simp only [cleanup_inprogress_attempts]
      rw [if_neg hjm, hok4]
    obtain ⟨s6, cancels6, hfin, hv6, hcm⟩ := sweep_finish jobs timeout s1 s4
      cancels3 a (failed_row UNEXPECTED_STATE_FAILURE_REASON s1.now a) c f2 l2
      (same_skeleton_trans hsk13 hsk4) hres1 hget4 hat1
      (fun b hb => by
        unfold models_resolve at *
        rw [hsk4.2.2.1]
        exact hf2res3 b hb)
      hf2ne hl2ne'
    refine ⟨s6, cancels6, ?_, ?_, ?_, ?_⟩
    · rw [hsplit, cleanup_inprogress_connectors_append, hrun2]
      show (cleanup_inprogress_connectors jobs timeout s2 cancels2 (c :: l2)) = _
      simp only [cleanup_inprogress_connectors]
      rw [hfsplit, cleanup_inprogress_attempts_append, hrun3]
      show ((cleanup_inprogress_attempts jobs timeout s3 cancels3 (a :: f2)).bind
        (fun p => cleanup_inprogress_connectors jobs timeout p.1 p.2 l2)) = _
      rw [hstepEq]
      exact hfin
    · intro _
      exact ⟨hv6, fun hmem => hnin3 (hcm.mp hmem)⟩
    · intro htrue
      rw [hjmf] at htrue
      cases htrue
    · intro htrue
      rw [hjmf] at htrue
      cases htrue

/-- Claim C4, counterexample to the claim as stated: in `orphanStore` the
only attempt is IN_PROGRESS and untracked, yet `cleanup_indexing_jobs`
returns the store unchanged (the sweep walks connectors and the attempt's
connector row is gone), so the attempt is not marked FAILED. -/
theorem claim_C4_counterexample :
    sweepAttempt ∈ orphanStore.index_attempts ∧
    sweepAttempt.status = IndexingStatus.IN_PROGRESS ∧
    jm_member [] sweepAttempt.id = false ∧
    cleanup_indexing_jobs orphanStore [] 3 = Except.ok ⟨orphanStore, [], []⟩ ∧
    get_index_attempt orphanStore sweepAttempt.id = some sweepAttempt := by
  refine ⟨by decide, by decide, by decide, by rfl, by decide⟩

/-- Claim C4 (amended): for every IN_PROGRESS attempt whose id is untracked
and whose connector row is still present, cleanup marks the attempt FAILED
with the killed-mid-run reason; and `_mark_run_failed` leaves the cc-pair
rows unchanged whenever the attempt's model is not PRESENT. -/
theorem claim_C4_orphan_sweep (s : StoreState) (jobs : JobMap) (timeout_hours : Int)
    (a : IndexAttempt) (c : Connector)
    (hwf : WFStore s)
    (ha : a ∈ s.index_attempts) (hstat : a.status = IndexingStatus.IN_PROGRESS)
    (huntracked : jobs.lookup a.id = none)
    (hconn : a.connector_id = some c.id) (hc : c ∈ s.connectors) :
    (∃ res, cleanup_indexing_jobs s jobs timeout_hours = Except.ok res ∧
      get_index_attempt res.store a.id =
        some (failed_row UNEXPECTED_STATE_FAILURE_REASON s.now a)) ∧
    (∀ s3 a3 r m s4, attempt_embedding_model s3 a3 = some m →
      m.status ≠ IndexModelStatus.PRESENT →
      mark_run_failed s3 a3 r = Except.ok s4 → s4.cc_pairs = s3.cc_pairs) := by
  constructor
  · obtain ⟨hnd_a, hnd_c, hres⟩ := hwf
    obtain ⟨s1, copy1, hrun1, hsk1, hget1⟩ := cleanup_completed_jobs_spec jobs s jobs hres
    have hkeys := lookup_none_keys jobs a.id huntracked
    have hg1 : get_index_attempt s1 a.id = some a := by
      rw [hget1 a.id hkeys]
      exact get_index_attempt_self s a hnd_a ha
    have hnd_a1 : (s1.index_attempts.map (fun b => b.id)).Nodup := by
      rw [same_skeleton_ids hsk1]
      exact hnd_a
    have hnd_c1 : (s1.connectors.map (fun x => x.id)).Nodup := by
      rw [hsk1.1]
      exact hnd_c
    have hres1 := same_skeleton_resolve hsk1 hres
    have hc1 : c ∈ s1.connectors := by rw [hsk1.1]; exact hc
    obtain ⟨s6, cancels6, hsweep, hb1, _, _⟩ := sweep_hits_attempt jobs timeout_hours s1 a c
      hnd_a1 hnd_c1 hres1 hg1 hstat hconn hc1
    have hjmf : jm_member jobs a.id = false := by
      unfold jm_member
      rw [huntracked]
      rfl
    obtain ⟨hv, _⟩ := hb1 hjmf
    refine ⟨⟨s6, copy1, cancels6⟩, ?_, ?_⟩
    · simp only [cleanup_indexing_jobs, fetch_connectors]
      rw [hrun1]
      show (cleanup_inprogress_connectors jobs timeout_hours s1 [] s1.connectors).bind _ = _
      rw [hsweep]
      rfl
    · show get_index_attempt s6 a.id = _
      rw [hv, hsk1.2.2.2.1]
  · intro s3 a3 r m s4 hm hnp hok
    rcases hc3 : a3.connector_id with _ | cid
    · simp [mark_run_failed, hc3] at hok
      rw [← hok]
      rfl
    · rcases hk3 : a3.credential_id with _ | kid
      · simp [mark_run_failed, hc3, hk3] at hok
        rw [← hok]
        rfl
      · simp [mark_run_failed, hc3, hk3, hm, hnp] at hok
        rw [← hok]
        rfl

/-- Witness for the amended C4 on `sweepStore`. -/
theorem claim_C4_orphan_sweep_witness :
    ∃ res, cleanup_indexing_jobs sweepStore [] 3 = Except.ok res ∧
      get_index_attempt res.store sweepAttempt.id =
        some (failed_row UNEXPECTED_STATE_FAILURE_REASON sweepStore.now sweepAttempt) :=
  (claim_C4_orphan_sweep sweepStore [] 3 sweepAttempt ⟨5, false, some 60, [1]⟩
    (by unfold WFStore models_resolve; decide) (by decide) (by decide) (by decide)
    (by decide) (by decide)).1

/-- Claim C5, counterexample to the claim as stated: in `orphanStore` the
only attempt is IN_PROGRESS and tracked by a pending handle, stale far past
the timeout, yet cleanup cancels nothing (the sweep never reaches it because
its connector row is gone). -/
theorem claim_C5_counterexample :
    sweepAttempt ∈ orphanStore.index_attempts ∧
    sweepAttempt.status = IndexingStatus.IN_PROGRESS ∧
    jm_member [(1, ⟨JobStatus.pending⟩)] sweepAttempt.id = true ∧
    orphanStore.now - sweepAttempt.time_updated > 60 * 60 * 3 ∧
    cleanup_indexing_jobs orphanStore [(1, ⟨JobStatus.pending⟩)] 3 =
      Except.ok ⟨orphanStore, [(1, ⟨JobStatus.pending⟩)], []⟩ := by
  refine ⟨by decide, by decide, by decide, by decide, by rfl⟩

/-- Claim C5 (amended): for every IN_PROGRESS attempt that is tracked by a
still-running handle and whose connector row exists, the sweep cancels the
handle and fails the attempt with the frozen reason exactly when the
database-clock staleness strictly exceeds the timeout; at or below the
timeout nothing is cancelled and the row is untouched. -/
theorem claim_C5_stall_check (s : StoreState) (jobs : JobMap) (timeout_hours : Int)
    (a : IndexAttempt) (j : Job) (c : Connector)
    (hwf : WFStore s)
    (hjnd : (jobs.map (fun e => e.1)).Nodup)
    (ha : a ∈ s.index_attempts) (hstat : a.status = IndexingStatus.IN_PROGRESS)
    (htracked : jobs.lookup a.id = some j) (hjdone : j.done = false)
    (hconn : a.connector_id = some c.id) (hc : c ∈ s.connectors) :
    ∃ res, cleanup_indexing_jobs s jobs timeout_hours = Except.ok res ∧
      (s.now - a.time_updated > 60 * 60 * timeout_hours →
        a.id ∈ res.cancelled ∧
        get_index_attempt res.store a.id =
          some (failed_row FROZEN_FAILURE_REASON s.now a)) ∧
      (¬ s.now - a.time_updated > 60 * 60 * timeout_hours →
        a.id ∉ res.cancelled ∧ get_index_attempt res.store a.id = some a) := by
  obtain ⟨hnd_a, hnd_c, hres⟩ := hwf
  obtain ⟨j1, j2, hjsplit, hj1keys⟩ := lookup_some_split jobs a.id j htracked
  have hj2keys : ∀ e ∈ j2, e.1 ≠ a.id := by
    have hjn := hjnd
    rw [hjsplit] at hjn
    exact (split_ids_ne_gen (fun e : Nat × Job => e.1) hjn).2
  obtain ⟨sA, copyA, hrunA, hskA, hgetA⟩ := cleanup_completed_jobs_spec j1 s jobs hres
  have hgA : get_index_attempt sA a.id = some a := by
    rw [hgetA a.id hj1keys]
    exact get_index_attempt_self s a hnd_a ha
  have hstep : cleanup_completed_step sA copyA a.id j = Except.ok (sA, copyA) := by
    simp [cleanup_completed_step, hgA, hjdone, is_indexing_job_marked_as_finished, hstat]
  obtain ⟨sB, copyB, hrunB, hskB, hgetB⟩ :=
    cleanup_completed_jobs_spec j2 sA copyA (same_skeleton_resolve hskA hres)
  have hgB : get_index_attempt sB a.id = some a := by
    rw [hgetB a.id hj2keys]
    exact hgA
  have hloop1 : cleanup_completed_jobs s jobs (j1 ++ (a.id, j) :: j2) =
      Except.ok (sB, copyB) := by
    rw [cleanup_completed_jobs_append, hrunA]
    show cleanup_completed_jobs sA copyA ((a.id, j) :: j2) = _
    simp only [cleanup_completed_jobs]
    rw [hstep]
    exact hrunB
  rw [← hjsplit] at hloop1
  have hskAB : same_skeleton s sB := same_skeleton_trans hskA hskB
  have hnd_aB : (sB.index_attempts.map (fun b => b.id)).Nodup := by
    rw [same_skeleton_ids hskAB]
    exact hnd_a
  have hnd_cB : (sB.connectors.map (fun x => x.id)).Nodup := by
    rw [hskAB.1]
    exact hnd_c
  have hresB := same_skeleton_resolve hskAB hres
  have hcB : c ∈ sB.connectors := by rw [hskAB.1]; exact hc
  obtain ⟨s6, cancels6, hsweep, _, hb2, hb3⟩ := sweep_hits_attempt jobs timeout_hours sB a c
    hnd_aB hnd_cB hresB hgB hstat hconn hcB
  have hjmt : jm_member jobs a.id = true := by
    unfold jm_member
    rw [htracked]
    rfl
  have hnowB : sB.now = s.now := hskAB.2.2.2.1
  refine ⟨⟨s6, copyB, cancels6⟩, ?_, ?_, ?_⟩
  · simp only [cleanup_indexing_jobs, fetch_connectors]
    rw [hloop1]
    show (cleanup_inprogress_connectors jobs timeout_hours sB [] sB.connectors).bind _ = _
    rw [hsweep]
    rfl
  · intro hst
    obtain ⟨hv, hcmem⟩ := hb2 hjmt (by rw [hnowB]; exact hst)
    refine ⟨hcmem, ?_⟩
    show get_index_attempt s6 a.id = _
    rw [hv, hnowB]
  · intro hst
    obtain ⟨hv, hnc⟩ := hb3 hjmt (by rw [hnowB]; exact hst)
    exact ⟨hnc, hv⟩

/-- Witness for the amended C5 on `sweepStore` with a tracked pending
handle. -/
theorem claim_C5_stall_check_witness :
    ∃ res, cleanup_indexing_jobs sweepStore [(1, ⟨JobStatus.pending⟩)] 3 = Except.ok res ∧
      (sweepStore.now - sweepAttempt.time_updated > 60 * 60 * 3 →
        sweepAttempt.id ∈ res.cancelled ∧
        get_index_attempt res.store sweepAttempt.id =
          some (failed_row FROZEN_FAILURE_REASON sweepStore.now sweepAttempt)) ∧
      (¬ sweepStore.now - sweepAttempt.time_updated > 60 * 60 * 3 →
        sweepAttempt.id ∉ res.cancelled ∧
        get_index_attempt res.store sweepAttempt.id = some sweepAttempt) :=
  claim_C5_stall_check sweepStore [(1, ⟨JobStatus.pending⟩)] 3 sweepAttempt
    ⟨JobStatus.pending⟩ ⟨5, false, some 60, [1]⟩
    (by unfold WFStore models_resolve; decide) (by decide) (by decide) (by decide)
    (by decide) (by decide) (by decide) (by decide)

/-! ### Dispatcher frame lemmas -/

theorem get_index_attempt_mark_self_nonterminal (s : StoreState) (a : IndexAttempt)
    (r : String) (hga : get_index_attempt s a.id = some a)
    (h1 : a.status ≠ IndexingStatus.SUCCESS) (h2 : a.status ≠ IndexingStatus.FAILED) :
    get_index_attempt (mark_attempt_failed s a.id r) a.id =
      some (failed_row r s.now a) := by
  rw [get_index_attempt_mark, hga]
  simp [mark_row, h1, h2]

theorem lookup_cons_eq (i k : Nat) (v : Job) (rest : JobMap) (h : (i == k) = true) :
    List.lookup i ((k, v) :: rest) = some v := by
  simp [List.lookup, h]

theorem lookup_cons_ne (i k : Nat) (v : Job) (rest : JobMap) (h : (i == k) = false) :
    List.lookup i ((k, v) :: rest) = List.lookup i rest := by
  simp [List.lookup, h]

theorem lookup_map_replace : ∀ (jm : JobMap) (id2 : Nat) (jb : Job) (i : Nat), i ≠ id2 →
    (jm.map (fun e => if e.1 = id2 then (id2, jb) else e)).lookup i = jm.lookup i
  | [], _, _, _, _ => rfl
  | (k, v) :: rest, id2, jb, i, h => by
    simp only [List.map_cons]
    by_cases hk : (k, v).1 = id2
    · rw [if_pos hk]
      have h1 : (i == id2) = false := beq_eq_false_iff_ne.mpr h
      have h2 : (i == k) = false := by
        have hk2 : k = id2 := hk
        rw [hk2]
        exact h1
      rw [lookup_cons_ne i id2 jb _ h1, lookup_cons_ne i k v rest h2]
      exact lookup_map_replace rest id2 jb i h
    · rw [if_neg hk]
      cases hbeq : (i == k) with
      | true =>
        rw [lookup_cons_eq i k v _ hbeq, lookup_cons_eq i k v rest hbeq]
      | false =>
        rw [lookup_cons_ne i k v _ hbeq, lookup_cons_ne i k v rest hbeq]
        exact lookup_map_replace rest id2 jb i h

theorem lookup_append_right_ne : ∀ (jm : JobMap) (id2 : Nat) (jb : Job) (i : Nat), i ≠ id2 →
    (jm ++ [(id2, jb)]).lookup i = jm.lookup i
  | [], id2, jb, i, h => by
    simp [List.lookup, beq_eq_false_iff_ne.mpr h]
  | (k, v) :: rest, id2, jb, i, h => by
    cases hbeq : (i == k) with
    | true => simp [List.lookup, hbeq]
    | false => simp [List.lookup, hbeq, lookup_append_right_ne rest id2 jb i h]

theorem jm_insert_lookup_ne (jm : JobMap) (id2 : Nat) (jb : Job) (i : Nat) (h : i ≠ id2) :
    (jm_insert jm id2 jb).lookup i = jm.lookup i := by
  unfold jm_insert
  split
  · exact lookup_map_replace jm id2 jb i h
  · exact lookup_append_right_ne jm id2 jb i h

/-- One dispatcher iteration for an attempt with a different id: the row with
id `i` is unchanged, the map's entry for `i` is unchanged, no submission for
`i` is recorded, and the store skeleton is preserved. -/
theorem kickoff_step_frame (s0 : StoreState) (client secondary_client : JobClient)
    (s : StoreState) (jobs : JobMap) (subs : List (Nat × Bool))
    (attempt : IndexAttempt) (em : Option EmbeddingModel) (i : Nat)
    (hne : attempt.id ≠ i) :
    get_index_attempt
        (kickoff_step s0 client secondary_client s jobs subs attempt em).1 i =
      get_index_attempt s i ∧
    (kickoff_step s0 client secondary_client s jobs subs attempt em).2.1.lookup i =
      jobs.lookup i ∧
    (∀ b, ((i, b) ∈ (kickoff_step s0 client secondary_client s jobs subs attempt em).2.2 ↔
      (i, b) ∈ subs)) ∧
    same_skeleton s (kickoff_step s0 client secondary_client s jobs subs attempt em).1 := by
  unfold kickoff_step
  by_cases hcn : attempt_connector s0 attempt = none
  · rw [if_pos hcn]
    exact ⟨get_index_attempt_mark_ne s attempt.id _ i (Ne.symm hne), rfl,
      fun b => Iff.rfl, mark_attempt_failed_skeleton s attempt.id _⟩
  · rw [if_neg hcn]
    by_cases hkn : attempt_credential s0 attempt = none
    · rw [if_pos hkn]
      exact ⟨get_index_attempt_mark_ne s attempt.id _ i (Ne.symm hne), rfl,
        fun b => Iff.rfl, mark_attempt_failed_skeleton s attempt.id _⟩
    · rw [if_neg hkn]
      cases hrun : (if use_secondary_of em = true then secondary_client attempt.id
          else client attempt.id) with
      | none =>
        refine ⟨rfl, rfl, fun b => ?_, same_skeleton_refl s⟩
        constructor
        · intro hmem
          rcases List.mem_append.mp hmem with h1 | h1
          · exact h1
          · exact absurd (congrArg Prod.fst (List.mem_singleton.mp h1)).symm hne
        · intro hmem
          exact List.mem_append_left _ hmem
      | some jb =>
        refine ⟨rfl, jm_insert_lookup_ne jobs attempt.id jb i (Ne.symm hne),
          fun b => ?_, same_skeleton_refl s⟩
        constructor
        · intro hmem
          rcases List.mem_append.mp hmem with h1 | h1
          · exact h1
          · exact absurd (congrArg Prod.fst (List.mem_singleton.mp h1)).symm hne
        · intro hmem
          exact List.mem_append_left _ hmem

theorem kickoff_loop_append (s0 : StoreState) (client secondary_client : JobClient)
    (xs ys : List (IndexAttempt × Option EmbeddingModel)) :
    ∀ s jobs subs,
    kickoff_loop s0 client secondary_client s jobs subs (xs ++ ys) =
      kickoff_loop s0 client secondary_client
        (kickoff_loop s0 client secondary_client s jobs subs xs).1
        (kickoff_loop s0 client secondary_client s jobs subs xs).2.1
        (kickoff_loop s0 client secondary_client s jobs subs xs).2.2 ys := by
  induction xs with
  | nil => intro s jobs subs; rfl
  | cons e xs ih =>
    intro s jobs subs
    obtain ⟨attempt, em⟩ := e
    simp only [List.cons_append, kickoff_loop]
    exact ih _ _ _

/-- The dispatcher loop over entries whose ids all differ from `i` keeps the
row, map entry and submissions for `i` unchanged (and the skeleton). -/
theorem kickoff_loop_frame (s0 : StoreState) (client secondary_client : JobClient)
    (entries : List (IndexAttempt × Option EmbeddingModel)) :
    ∀ s jobs subs (i : Nat), (∀ e ∈ entries, e.1.id ≠ i) →
    get_index_attempt (kickoff_loop s0 client secondary_client s jobs subs entries).1 i =
      get_index_attempt s i ∧
    (kickoff_loop s0 client secondary_client s jobs subs entries).2.1.lookup i =
      jobs.lookup i ∧
    (∀ b, ((i, b) ∈ (kickoff_loop s0 client secondary_client s jobs subs entries).2.2 ↔
      (i, b) ∈ subs)) ∧
    same_skeleton s (kickoff_loop s0 client secondary_client s jobs subs entries).1 := by
  induction entries with
  | nil =>
    intro s jobs subs i _
    exact ⟨rfl, rfl, fun b => Iff.rfl, same_skeleton_refl s⟩
  | cons e rest ih =>
    intro s jobs subs i hids
    obtain ⟨attempt, em⟩ := e
    have hne : attempt.id ≠ i := hids (attempt, em) (List.mem_cons_self _ _)
    obtain ⟨hg, hl, hs, hsk⟩ :=
      kickoff_step_frame s0 client secondary_client s jobs subs attempt em i hne
    obtain ⟨hg2, hl2, hs2, hsk2⟩ := ih
      (kickoff_step s0 client secondary_client s jobs subs attempt em).1
      (kickoff_step s0 client secondary_client s jobs subs attempt em).2.1
      (kickoff_step s0 client secondary_client s jobs subs attempt em).2.2 i
      (fun e2 he2 => hids e2 (List.mem_cons_of_mem _ he2))
    refine ⟨?_, ?_, ?_, ?_⟩
    · show get_index_attempt (kickoff_loop s0 client secondary_client _ _ _ rest).1 i = _
      rw [hg2, hg]
    · show (kickoff_loop s0 client secondary_client _ _ _ rest).2.1.lookup i = _
      rw [hl2, hl]
    · intro b
      exact ((hs2 b).trans (hs b))
    · exact same_skeleton_trans hsk hsk2

theorem mem_not_started (s : StoreState) (b : IndexAttempt) :
    b ∈ get_not_started_index_attempts s ↔
      b ∈ s.index_attempts ∧ b.status = IndexingStatus.NOT_STARTED := by
  unfold get_not_started_index_attempts
  simp [List.mem_filter]

/-- Claim C6: dispatching a NOT_STARTED untracked attempt: a missing
connector row fails it with "Connector is null" and nothing is submitted; a
missing credential row fails it with "Credential is null" and nothing is
submitted; otherwise it is submitted (to the secondary client exactly when
its model is FUTURE), and a falsy handle leaves it untracked and still
NOT_STARTED. -/
theorem claim_C6_kickoff_dispatch (s : StoreState) (jobs : JobMap)
    (client secondary_client : JobClient) (a : IndexAttempt)
    (hnd : (s.index_attempts.map (fun b => b.id)).Nodup)
    (ha : a ∈ s.index_attempts) (hstat : a.status = IndexingStatus.NOT_STARTED)
    (huntracked : jobs.lookup a.id = none) :
    (attempt_connector s a = none →
      get_index_attempt (kickoff_indexing_jobs s jobs client secondary_client).store a.id =
        some (failed_row "Connector is null" s.now a) ∧
      ∀ b, (a.id, b) ∉ (kickoff_indexing_jobs s jobs client secondary_client).submitted) ∧
    (attempt_connector s a ≠ none → attempt_credential s a = none →
      get_index_attempt (kickoff_indexing_jobs s jobs client secondary_client).store a.id =
        some (failed_row "Credential is null" s.now a) ∧
      ∀ b, (a.id, b) ∉ (kickoff_indexing_jobs s jobs client secondary_client).submitted) ∧
    (attempt_connector s a ≠ none → attempt_credential s a ≠ none →
      ((a.id, use_secondary_of (attempt_embedding_model s a)) ∈
        (kickoff_indexing_jobs s jobs client secondary_client).submitted ∧
       ((if use_secondary_of (attempt_embedding_model s a) = true
          then secondary_client a.id else client a.id) = none →
        (kickoff_indexing_jobs s jobs client secondary_client).jobs.lookup a.id = none ∧
        get_index_attempt
          (kickoff_indexing_jobs s jobs client secondary_client).store a.id = some a))) ∧
    (∀ em, use_secondary_of em = true ↔
      ∃ m, em = some m ∧ m.status = IndexModelStatus.FUTURE) := by
  have hfl : a ∈ (get_not_started_index_attempts s).filter
      (fun b => ¬ jm_member jobs b.id) := by
    rw [List.mem_filter]
    refine ⟨(mem_not_started s a).mpr ⟨ha, hstat⟩, ?_⟩
    simp [jm_member, huntracked]
  obtain ⟨g1, g2, hgsplit⟩ := List.append_of_mem hfl
  have hnd_filtered : (((get_not_started_index_attempts s).filter
      (fun b => ¬ jm_member jobs b.id)).map (fun b => b.id)).Nodup := by
    unfold get_not_started_index_attempts
    exact List.Nodup.sublist
      (List.Sublist.map _ ((List.filter_sublist _).trans (List.filter_sublist _))) hnd
  rw [hgsplit] at hnd_filtered
  obtain ⟨hg1ne, hg2ne⟩ := split_ids_ne_gen (fun b : IndexAttempt => b.id) hnd_filtered
  have hentries : ((get_not_started_index_attempts s).filter
        (fun b => ¬ jm_member jobs b.id)).map
        (fun b => (b, attempt_embedding_model s b)) =
      g1.map (fun b => (b, attempt_embedding_model s b)) ++
        (a, attempt_embedding_model s a) ::
        g2.map (fun b => (b, attempt_embedding_model s b)) := by
    rw [hgsplit, List.map_append, List.map_cons]
  have hmem_new : (a, attempt_embedding_model s a) ∈
      ((get_not_started_index_attempts s).filter
        (fun b => ¬ jm_member jobs b.id)).map
        (fun b => (b, attempt_embedding_model s b)) := by
    rw [hentries]
    exact List.mem_append_right _ (List.mem_cons_self _ _)
  have hne_nil : ((get_not_started_index_attempts s).filter
      (fun b => ¬ jm_member jobs b.id)).map
      (fun b => (b, attempt_embedding_model s b)) ≠ [] :=
    List.ne_nil_of_mem hmem_new
  have hkick : kickoff_indexing_jobs s jobs client secondary_client =
      ⟨(kickoff_loop s client secondary_client s jobs []
          (((get_not_started_index_attempts s).filter
            (fun b => ¬ jm_member jobs b.id)).map
            (fun b => (b, attempt_embedding_model s b)))).1,
       (kickoff_loop s client secondary_client s jobs []
          (((get_not_started_index_attempts s).filter
            (fun b => ¬ jm_member jobs b.id)).map
            (fun b => (b, attempt_embedding_model s b)))).2.1,
       (kickoff_loop s client secondary_client s jobs []
          (((get_not_started_index_attempts s).filter
            (fun b => ¬ jm_member jobs b.id)).map
            (fun b => (b, attempt_embedding_model s b)))).2.2⟩ := by
    simp only [kickoff_indexing_jobs]
    rw [if_neg hne_nil]
  rcases hpA : kickoff_loop s client secondary_client s jobs []
      (g1.map (fun b => (b, attempt_embedding_model s b))) with ⟨sA, jmA, subsA⟩
  obtain ⟨hgA, hlA, hsA, hskA⟩ := kickoff_loop_frame s client secondary_client
    (g1.map (fun b => (b, attempt_embedding_model s b))) s jobs [] a.id
    (fun e he => by
      obtain ⟨b, hb, rfl⟩ := List.mem_map.mp he
      exact hg1ne b hb)
  rw [hpA] at hgA hlA hsA hskA
  have hgA' : get_index_attempt sA a.id = some a := by
    rw [hgA]
    exact get_index_attempt_self s a hnd ha
  have hnowA : sA.now = s.now := hskA.2.2.2.1
  have hrunpre : kickoff_loop s client secondary_client s jobs []
      (((get_not_started_index_attempts s).filter
        (fun b => ¬ jm_member jobs b.id)).map
        (fun b => (b, attempt_embedding_model s b))) =
      kickoff_loop s client secondary_client sA jmA subsA
        ((a, attempt_embedding_model s a) ::
          g2.map (fun b => (b, attempt_embedding_model s b))) := by
    rw [hentries, kickoff_loop_append, hpA]
  have hns : a.status ≠ IndexingStatus.SUCCESS := by simp [hstat]
  have hnf : a.status ≠ IndexingStatus.FAILED := by simp [hstat]
  refine ⟨?_, ?_, ?_, ?_⟩
  · -- connector deleted
    intro hcn
    have hstep : kickoff_step s client secondary_client sA jmA subsA a
        (attempt_embedding_model s a) =
        (mark_attempt_failed sA a.id "Connector is null", jmA, subsA) := by
      unfold kickoff_step
      rw [if_pos hcn]
    obtain ⟨hgB, hlB, hsB, hskB⟩ := kickoff_loop_frame s client secondary_client
      (g2.map (fun b => (b, attempt_embedding_model s b)))
      (mark_attempt_failed sA a.id "Connector is null") jmA subsA a.id
      (fun e he => by
        obtain ⟨b, hb, rfl⟩ := List.mem_map.mp he
        exact hg2ne b hb)
    have hrow : get_index_attempt
        (mark_attempt_failed sA a.id "Connector is null") a.id =
        some (failed_row "Connector is null" s.now a) := by
      rw [← hnowA]
      exact get_index_attempt_mark_self_nonterminal sA a _ hgA' hns hnf
    constructor
    · rw [hkick]
      show get_index_attempt (kickoff_loop s client secondary_client s jobs [] _).1 a.id = _
      rw [hrunpre]
      show get_index_attempt (kickoff_loop s client secondary_client
        (kickoff_step s client secondary_client sA jmA subsA a
          (attempt_embedding_model s a)).1 _ _ _).1 a.id = _
      rw [hstep]
      rw [hgB, hrow]
    · intro b hmem
      rw [hkick] at hmem
      show False
      have hmem2 : (a.id, b) ∈ (kickoff_loop s client secondary_client
          (mark_attempt_failed sA a.id "Connector is null") jmA subsA
          (g2.map (fun b => (b, attempt_embedding_model s b)))).2.2 := by
        have := hmem
        rw [hrunpre] at this
        show (a.id, b) ∈ _
        have hstep2 : kickoff_loop s client secondary_client sA jmA subsA
            ((a, attempt_embedding_model s a) ::
              g2.map (fun b => (b, attempt_embedding_model s b))) =
            kickoff_loop s client secondary_client
              (mark_attempt_failed sA a.id "Connector is null") jmA subsA
              (g2.map (fun b => (b, attempt_embedding_model s b))) := by
          simp only [kickoff_loop]
          rw [hstep]
        rw [← hstep2]
        exact this
      have hsubsA : (a.id, b) ∈ subsA := (hsB b).mp hmem2
      exact List.not_mem_nil _ ((hsA b).mp hsubsA)
  · -- credential deleted
    intro hcn hkn
    have hstep : kickoff_step s client secondary_client sA jmA subsA a
        (attempt_embedding_model s a) =
        (mark_attempt_failed sA a.id "Credential is null", jmA, subsA) := by
      unfold kickoff_step
      rw [if_neg hcn, if_pos hkn]
    obtain ⟨hgB, hlB, hsB, hskB⟩ := kickoff_loop_frame s client secondary_client
      (g2.map (fun b => (b, attempt_embedding_model s b)))
      (mark_attempt_failed sA a.id "Credential is null") jmA subsA a.id
      (fun e he => by
        obtain ⟨b, hb, rfl⟩ := List.mem_map.mp he
        exact hg2ne b hb)
    have hrow : get_index_attempt
        (mark_attempt_failed sA a.id "Credential is null") a.id =
        some (failed_row "Credential is null" s.now a) := by
      rw [← hnowA]
      exact get_index_attempt_mark_self_nonterminal sA a _ hgA' hns hnf
    constructor
    · rw [hkick]
      show get_index_attempt (kickoff_loop s client secondary_client s jobs [] _).1 a.id = _
      rw [hrunpre]
      show get_index_attempt (kickoff_loop s client secondary_client
        (kickoff_step s client secondary_client sA jmA subsA a
          (attempt_embedding_model s a)).1 _ _ _).1 a.id = _
      rw [hstep]
      rw [hgB, hrow]
    · intro b hmem
      rw [hkick] at hmem
      show False
      have hstep2 : kickoff_loop s client secondary_client sA jmA subsA
          ((a, attempt_embedding_model s a) ::
            g2.map (fun b => (b, attempt_embedding_model s b))) =
          kickoff_loop s client secondary_client
            (mark_attempt_failed sA a.id "Credential is null") jmA subsA
            (g2.map (fun b => (b, attempt_embedding_model s b))) := by
        simp only [kickoff_loop]
        rw [hstep]
      have hmem2 : (a.id, b) ∈ (kickoff_loop s client secondary_client
          (mark_attempt_failed sA a.id "Credential is null") jmA subsA
          (g2.map (fun b => (b, attempt_embedding_model s b)))).2.2 := by
        have := hmem
        rw [hrunpre, hstep2] at this
        exact this
      have hsubsA : (a.id, b) ∈ subsA := (hsB b).mp hmem2
      exact List.not_mem_nil _ ((hsA b).mp hsubsA)
  · -- both rows present: submitted
    intro hcn hkn
    cases hrun : (if use_secondary_of (attempt_embedding_model s a) = true
        then secondary_client a.id else client a.id) with
    | some jb =>
      have hstep : kickoff_step s client secondary_client sA jmA subsA a
          (attempt_embedding_model s a) =
          (sA, jm_insert jmA a.id jb,
            subsA ++ [(a.id, use_secondary_of (attempt_embedding_model s a))]) := by
        unfold kickoff_step
        rw [if_neg hcn, if_neg hkn]
        simp only [hrun]
      obtain ⟨hgB, hlB, hsB, hskB⟩ := kickoff_loop_frame s client secondary_client
        (g2.map (fun b => (b, attempt_embedding_model s b))) sA (jm_insert jmA a.id jb)
        (subsA ++ [(a.id, use_secondary_of (attempt_embedding_model s a))]) a.id
        (fun e he => by
          obtain ⟨b, hb, rfl⟩ := List.mem_map.mp he
          exact hg2ne b hb)
      have hstep2 : kickoff_loop s client secondary_client sA jmA subsA
          ((a, attempt_embedding_model s a) ::
            g2.map (fun b => (b, attempt_embedding_model s b))) =
          kickoff_loop s client secondary_client sA (jm_insert jmA a.id jb)
            (subsA ++ [(a.id, use_secondary_of (attempt_embedding_model s a))])
            (g2.map (fun b => (b, attempt_embedding_model s b))) := by
        simp only [kickoff_loop]
        rw [hstep]
      refine ⟨?_, ?_⟩
      · rw [hkick]
        show (a.id, _) ∈ (kickoff_loop s client secondary_client s jobs [] _).2.2
        rw [hrunpre, hstep2]
        exact (hsB _).mpr (List.mem_append_right _ (List.mem_cons_self _ _))
      · intro hnone
        cases hnone
    | none =>
      have hstep : kickoff_step s client secondary_client sA jmA subsA a
          (attempt_embedding_model s a) =
          (sA, jmA,
            subsA ++ [(a.id, use_secondary_of (attempt_embedding_model s a))]) := by
        unfold kickoff_step
        rw [if_neg hcn, if_neg hkn]
        simp only [hrun]
      obtain ⟨hgB, hlB, hsB, hskB⟩ := kickoff_loop_frame s client secondary_client
        (g2.map (fun b => (b, attempt_embedding_model s b))) sA jmA
        (subsA ++ [(a.id, use_secondary_of (attempt_embedding_model s a))]) a.id
        (fun e he => by
          obtain ⟨b, hb, rfl⟩ := List.mem_map.mp he
          exact hg2ne b hb)
      have hstep2 : kickoff_loop s client secondary_client sA jmA subsA
          ((a, attempt_embedding_model s a) ::
            g2.map (fun b => (b, attempt_embedding_model s b))) =
          kickoff_loop s client secondary_client sA jmA
            (subsA ++ [(a.id, use_secondary_of (attempt_embedding_model s a))])
            (g2.map (fun b => (b, attempt_embedding_model s b))) := by
        simp only [kickoff_loop]
        rw [hstep]
      refine ⟨?_, ?_⟩
      · rw [hkick]
        show (a.id, _) ∈ (kickoff_loop s client secondary_client s jobs [] _).2.2
        rw [hrunpre, hstep2]
        exact (hsB _).mpr (List.mem_append_right _ (List.mem_cons_self _ _))
      · intro _
        constructor
        · rw [hkick]
          show (kickoff_loop s client secondary_client s jobs [] _).2.1.lookup a.id = none
          rw [hrunpre, hstep2, hlB, hlA]
          exact huntracked
        · rw [hkick]
          show get_index_attempt
            (kickoff_loop s client secondary_client s jobs [] _).1 a.id = some a
          rw [hrunpre, hstep2, hgB]
          exact hgA'
  · -- the secondary-pool predicate
    intro em
    cases em with
    | none =>
      simp [use_secondary_of]
    | some m =>
      simp [use_secondary_of]

/-- Witness for C6: `kickStore` dispatched against a primary client whose
submit returns a falsy handle. -/
theorem claim_C6_kickoff_dispatch_witness :
    (attempt_connector kickStore kickAttempt = none →
      get_index_attempt (kickoff_indexing_jobs kickStore [] (fun _ => none)
          (fun _ => some ⟨JobStatus.running⟩)).store kickAttempt.id =
        some (failed_row "Connector is null" kickStore.now kickAttempt) ∧
      ∀ b, (kickAttempt.id, b) ∉ (kickoff_indexing_jobs kickStore [] (fun _ => none)
        (fun _ => some ⟨JobStatus.running⟩)).submitted) ∧
    (attempt_connector kickStore kickAttempt ≠ none →
      attempt_credential kickStore kickAttempt = none →
      get_index_attempt (kickoff_indexing_jobs kickStore [] (fun _ => none)
          (fun _ => some ⟨JobStatus.running⟩)).store kickAttempt.id =
        some (failed_row "Credential is null" kickStore.now kickAttempt) ∧
      ∀ b, (kickAttempt.id, b) ∉ (kickoff_indexing_jobs kickStore [] (fun _ => none)
        (fun _ => some ⟨JobStatus.running⟩)).submitted) ∧
    (attempt_connector kickStore kickAttempt ≠ none →
      attempt_credential kickStore kickAttempt ≠ none →
      ((kickAttempt.id, use_secondary_of (attempt_embedding_model kickStore kickAttempt)) ∈
        (kickoff_indexing_jobs kickStore [] (fun _ => none)
          (fun _ => some ⟨JobStatus.running⟩)).submitted ∧
       ((if use_secondary_of (attempt_embedding_model kickStore kickAttempt) = true
          then (fun _ : Nat => some (⟨JobStatus.running⟩ : Job)) kickAttempt.id
          else (fun _ : Nat => (none : Option Job)) kickAttempt.id) = none →
        (kickoff_indexing_jobs kickStore [] (fun _ => none)
          (fun _ => some ⟨JobStatus.running⟩)).jobs.lookup kickAttempt.id = none ∧
        get_index_attempt (kickoff_indexing_jobs kickStore [] (fun _ => none)
          (fun _ => some ⟨JobStatus.running⟩)).store kickAttempt.id = some kickAttempt))) ∧
    (∀ em, use_secondary_of em = true ↔
      ∃ m, em = some m ∧ m.status = IndexModelStatus.FUTURE) :=
  claim_C6_kickoff_dispatch kickStore [] (fun _ => none)
    (fun _ => some ⟨JobStatus.running⟩) kickAttempt
    (by decide) (by decide) (by decide) (by decide)

/-- Claim C10: a NOT_STARTED untracked attempt whose embedding-model
reference is null but whose connector and credential exist is not marked
failed (its row is unchanged) and is submitted to the primary client
(`use_secondary_index` defaults to false). -/
theorem claim_C10_null_model_primary (s : StoreState) (jobs : JobMap)
    (client secondary_client : JobClient) (a : IndexAttempt)
    (hnd : (s.index_attempts.map (fun b => b.id)).Nodup)
    (ha : a ∈ s.index_attempts) (hstat : a.status = IndexingStatus.NOT_STARTED)
    (huntracked : jobs.lookup a.id = none)
    (hm : attempt_embedding_model s a = none)
    (hcn : attempt_connector s a ≠ none) (hkn : attempt_credential s a ≠ none) :
    use_secondary_of (attempt_embedding_model s a) = false ∧
    (a.id, false) ∈ (kickoff_indexing_jobs s jobs client secondary_client).submitted ∧
    get_index_attempt (kickoff_indexing_jobs s jobs client secondary_client).store a.id =
      some a := by
  have husec : use_secondary_of (attempt_embedding_model s a) = false := by
    rw [hm]
    rfl
  have hfl : a ∈ (get_not_started_index_attempts s).filter
      (fun b => ¬ jm_member jobs b.id) := by
    rw [List.mem_filter]
    refine ⟨(mem_not_started s a).mpr ⟨ha, hstat⟩, ?_⟩
    simp [jm_member, huntracked]
  obtain ⟨g1, g2, hgsplit⟩ := List.append_of_mem hfl
  have hnd_filtered : (((get_not_started_index_attempts s).filter
      (fun b => ¬ jm_member jobs b.id)).map (fun b => b.id)).Nodup := by
    unfold get_not_started_index_attempts
    exact List.Nodup.sublist
      (List.Sublist.map _ ((List.filter_sublist _).trans (List.filter_sublist _))) hnd
  rw [hgsplit] at hnd_filtered
  obtain ⟨hg1ne, hg2ne⟩ := split_ids_ne_gen (fun b : IndexAttempt => b.id) hnd_filtered
  have hentries : ((get_not_started_index_attempts s).filter
        (fun b => ¬ jm_member jobs b.id)).map
        (fun b => (b, attempt_embedding_model s b)) =
      g1.map (fun b => (b, attempt_embedding_model s b)) ++
        (a, attempt_embedding_model s a) ::
        g2.map (fun b => (b, attempt_embedding_model s b)) := by
    rw [hgsplit, List.map_append, List.map_cons]
  have hmem_new : (a, attempt_embedding_model s a) ∈
      ((get_not_started_index_attempts s).filter
        (fun b => ¬ jm_member jobs b.id)).map
        (fun b => (b, attempt_embedding_model s b)) := by
    rw [hentries]
    exact List.mem_append_right _ (List.mem_cons_self _ _)
  have hne_nil : ((get_not_started_index_attempts s).filter
      (fun b => ¬ jm_member jobs b.id)).map
      (fun b => (b, attempt_embedding_model s b)) ≠ [] :=
    List.ne_nil_of_mem hmem_new
  have hkick : kickoff_indexing_jobs s jobs client secondary_client =
      ⟨(kickoff_loop s client secondary_client s jobs []
          (((get_not_started_index_attempts s).filter
            (fun b => ¬ jm_member jobs b.id)).map
            (fun b => (b, attempt_embedding_model s b)))).1,
       (kickoff_loop s client secondary_client s jobs []
          (((get_not_started_index_attempts s).filter
            (fun b => ¬ jm_member jobs b.id)).map
            (fun b => (b, attempt_embedding_model s b)))).2.1,
       (kickoff_loop s client secondary_client s jobs []
          (((get_not_started_index_attempts s).filter
            (fun b => ¬ jm_member jobs b.id)).map
            (fun b => (b, attempt_embedding_model s b)))).2.2⟩ := by
    simp only [kickoff_indexing_jobs]
    rw [if_neg hne_nil]
  rcases hpA : kickoff_loop s client secondary_client s jobs []
      (g1.map (fun b => (b, attempt_embedding_model s b))) with ⟨sA, jmA, subsA⟩
  obtain ⟨hgA, hlA, hsA, hskA⟩ := kickoff_loop_frame s client secondary_client
    (g1.map (fun b => (b, attempt_embedding_model s b))) s jobs [] a.id
    (fun e he => by
      obtain ⟨b, hb, rfl⟩ := List.mem_map.mp he
      exact hg1ne b hb)
  rw [hpA] at hgA hlA hsA hskA
  have hgA' : get_index_attempt sA a.id = some a := by
    rw [hgA]
    exact get_index_attempt_self s a hnd ha
  have hrunpre : kickoff_loop s client secondary_client s jobs []
      (((get_not_started_index_attempts s).filter
        (fun b => ¬ jm_member jobs b.id)).map
        (fun b => (b, attempt_embedding_model s b))) =
      kickoff_loop s client secondary_client sA jmA subsA
        ((a, attempt_embedding_model s a) ::
          g2.map (fun b => (b, attempt_embedding_model s b))) := by
    rw [hentries, kickoff_loop_append, hpA]
  refine ⟨husec, ?_⟩
  cases hrun : (if use_secondary_of (attempt_embedding_model s a) = true
      then secondary_client a.id else client a.id) with
  | some jb =>
    have hstep : kickoff_step s client secondary_client sA jmA subsA a
        (attempt_embedding_model s a) =
        (sA, jm_insert jmA a.id jb,
          subsA ++ [(a.id, use_secondary_of (attempt_embedding_model s a))]) := by
      unfold kickoff_step
      rw [if_neg hcn, if_neg hkn]
      simp only [hrun]
    obtain ⟨hgB, hlB, hsB, hskB⟩ := kickoff_loop_frame s client secondary_client
      (g2.map (fun b => (b, attempt_embedding_model s b))) sA (jm_insert jmA a.id jb)
      (subsA ++ [(a.id, use_secondary_of (attempt_embedding_model s a))]) a.id
      (fun e he => by
        obtain ⟨b, hb, rfl⟩ := List.mem_map.mp he
        exact hg2ne b hb)
    have hstep2 : kickoff_loop s client secondary_client sA jmA subsA
        ((a, attempt_embedding_model s a) ::
          g2.map (fun b => (b, attempt_embedding_model s b))) =
        kickoff_loop s client secondary_client sA (jm_insert jmA a.id jb)
          (subsA ++ [(a.id, use_secondary_of (attempt_embedding_model s a))])
          (g2.map (fun b => (b, attempt_embedding_model s b))) := by
      simp only [kickoff_loop]
      rw [hstep]
    constructor
    · rw [hkick]
      show (a.id, false) ∈ (kickoff_loop s client secondary_client s jobs [] _).2.2
      rw [hrunpre, hstep2]
      refine (hsB false).mpr ?_
      rw [← husec]
      exact List.mem_append_right _ (List.mem_cons_self _ _)
    · rw [hkick]
      show get_index_attempt
        (kickoff_loop s client secondary_client s jobs [] _).1 a.id = some a
      rw [hrunpre, hstep2, hgB]
      exact hgA'
  | none =>
    have hstep : kickoff_step s client secondary_client sA jmA subsA a
        (attempt_embedding_model s a) =
        (sA, jmA,
          subsA ++ [(a.id, use_secondary_of (attempt_embedding_model s a))]) := by
      unfold kickoff_step
      rw [if_neg hcn, if_neg hkn]
      simp only [hrun]
    obtain ⟨hgB, hlB, hsB, hskB⟩ := kickoff_loop_frame s client secondary_client
      (g2.map (fun b => (b, attempt_embedding_model s b))) sA jmA
      (subsA ++ [(a.id, use_secondary_of (attempt_embedding_model s a))]) a.id
      (fun e he => by
        obtain ⟨b, hb, rfl⟩ := List.mem_map.mp he
        exact hg2ne b hb)
    have hstep2 : kickoff_loop s client secondary_client sA jmA subsA
        ((a, attempt_embedding_model s a) ::
          g2.map (fun b => (b, attempt_embedding_model s b))) =
        kickoff_loop s client secondary_client sA jmA
          (subsA ++ [(a.id, use_secondary_of (attempt_embedding_model s a))])
          (g2.map (fun b => (b, attempt_embedding_model s b))) := by
      simp only [kickoff_loop]
      rw [hstep]
    constructor
    · rw [hkick]
      show (a.id, false) ∈ (kickoff_loop s client secondary_client s jobs [] _).2.2
      rw [hrunpre, hstep2]
      refine (hsB false).mpr ?_
      rw [← husec]
      exact List.mem_append_right _ (List.mem_cons_self _ _)
    · rw [hkick]
      show get_index_attempt
        (kickoff_loop s client secondary_client s jobs [] _).1 a.id = some a
      rw [hrunpre, hstep2, hgB]
      exact hgA'

/-- Witness for C10 on `kickNullModelStore`. -/
theorem claim_C10_null_model_primary_witness :
    use_secondary_of (attempt_embedding_model kickNullModelStore kickNullModelAttempt)
      = false ∧
    (kickNullModelAttempt.id, false) ∈
      (kickoff_indexing_jobs kickNullModelStore [] (fun _ => some ⟨JobStatus.running⟩)
        (fun _ => some ⟨JobStatus.pending⟩)).submitted ∧
    get_index_attempt (kickoff_indexing_jobs kickNullModelStore []
        (fun _ => some ⟨JobStatus.running⟩)
        (fun _ => some ⟨JobStatus.pending⟩)).store kickNullModelAttempt.id =
      some kickNullModelAttempt :=
  claim_C10_null_model_primary kickNullModelStore [] (fun _ => some ⟨JobStatus.running⟩)
    (fun _ => some ⟨JobStatus.pending⟩) kickNullModelAttempt
    (by decide) (by decide) (by decide) (by decide) (by decide) (by decide) (by decide)

/-- Claim C9: the `ongoing` set of `create_indexing_jobs` holds exactly the
triples of tracked attempt ids whose rows still exist — a tracked id whose
row was deleted contributes nothing; consequently, on `schedStore`, where
attempt 7 is tracked but its row is gone, the scheduler creates a fresh
NOT_STARTED attempt for the triple even though the old handle is live. -/
theorem claim_C9_missing_row_omitted :
    (∀ (s : StoreState) (jm : JobMap) (t : Option Nat × Option Nat × Option Nat),
      t ∈ ongoing_triples s jm ↔
        ∃ e ∈ jm, ∃ b, get_index_attempt s e.1 = some b ∧
          t = (b.connector_id, b.credential_id, b.embedding_model_id)) ∧
    (jm_member schedJobs 7 = true ∧ get_index_attempt schedStore 7 = none ∧
      create_indexing_jobs schedStore schedJobs = Except.ok schedResultStore ∧
      (⟨3, some 1, some 1, some 10, IndexingStatus.NOT_STARTED, 100, none⟩ : IndexAttempt)
        ∈ schedResultStore.index_attempts) := by
  constructor
  · intro s jm t
    unfold ongoing_triples
    rw [List.mem_filterMap]
    constructor
    · rintro ⟨e, he, hfe⟩
      rcases Option.map_eq_some'.mp hfe with ⟨b, hgb, hbt⟩
      exact ⟨e, he, b, hgb, hbt.symm⟩
    · rintro ⟨e, he, b, hgb, hbt⟩
      exact ⟨e, he, Option.map_eq_some'.mpr ⟨b, hgb, hbt.symm⟩⟩
  · exact ⟨by decide, by rfl, by rfl, by decide⟩

/-- Witness for C9's quantified part at a concrete store and map. -/
theorem claim_C9_missing_row_omitted_witness :
    ((some 1, some 1, some 10) : Option Nat × Option Nat × Option Nat) ∈
        ongoing_triples schedResultStore [(3, ⟨JobStatus.running⟩)] ↔
      ∃ e ∈ ([(3, ⟨JobStatus.running⟩)] : JobMap), ∃ b,
        get_index_attempt schedResultStore e.1 = some b ∧
        ((some 1, some 1, some 10) : Option Nat × Option Nat × Option Nat) =
          (b.connector_id, b.credential_id, b.embedding_model_id) :=
  claim_C9_missing_row_omitted.1 schedResultStore [(3, ⟨JobStatus.running⟩)]
    (some 1, some 1, some 10)

/-- Claim C8: the observable shape of `update_loop` — the cc-pair recovery
runs exactly once, before the first tick; each tick applies the phases in
the order Swap, Reap, Schedule, Dispatch; a raise inside the swap check is
caught at the tick boundary and the loop carries on with the next tick; the
post-tick sleep happens exactly when `delay - elapsed` is positive. -/
theorem claim_C8_update_loop (client secondary_client : JobClient) (timeout_hours : Int)
    (s : StoreState) :
    (update_loop_run client secondary_client timeout_hours 0 s =
      (mark_all_in_progress_cc_pairs_failed s, [])) ∧
    (∀ n, update_loop_run client secondary_client timeout_hours (n + 1) s =
      run_tick client secondary_client timeout_hours
        (update_loop_run client secondary_client timeout_hours n s)) ∧
    (∀ st jm msg st1, check_index_swap st = Except.error (msg, st1) →
      run_tick client secondary_client timeout_hours (st, jm) = (st1, jm)) ∧
    (∀ st jm sr cr s3, check_index_swap st = Except.ok sr →
      cleanup_indexing_jobs sr.store jm timeout_hours = Except.ok cr →
      create_indexing_jobs cr.store cr.jobs = Except.ok s3 →
      run_tick client secondary_client timeout_hours (st, jm) =
        ((kickoff_indexing_jobs s3 cr.jobs client secondary_client).store,
         (kickoff_indexing_jobs s3 cr.jobs client secondary_client).jobs)) ∧
    (∀ delay elapsed : Rat,
      (tick_sleep_duration delay elapsed).isSome ↔ delay - elapsed > 0) := by
  refine ⟨rfl, fun n => rfl, ?_, ?_, ?_⟩
  · intro st jm msg st1 herr
    simp [run_tick, herr]
  · intro st jm sr cr s3 hswap hclean hcreate
    simp [run_tick, hswap, hclean, hcreate]
  · intro delay elapsed
    unfold tick_sleep_duration
    by_cases h : delay - elapsed > 0
    · simp [h]
    · simp [h]

/-- Witness for C8: a tick whose swap check raises (a FUTURE model with no
cc-pairs) leaves the store and tracked map unchanged instead of
propagating. -/
theorem claim_C8_update_loop_witness :
    run_tick (fun _ => none) (fun _ => none) 3 (emptyFutureStore, []) =
      (emptyFutureStore, []) :=
  (claim_C8_update_loop (fun _ => none) (fun _ => none) 3 emptyFutureStore).2.2.1
    emptyFutureStore [] "More unique indexings than cc pairs, should not occur"
    emptyFutureStore (by rfl)

end Update
